import Mathlib

/-!
# The message-queue sender and receiver

A shallow embedding of `sender.c` and `receiver.c`.  Each program is a `main`
that drives a POSIX message queue through `mq_open`, `mq_send`, `mq_receive`,
`mq_getattr`, `mq_close` and `mq_unlink`.  The two `main` functions are
translated statement by statement; the queue calls, which belong to the
operating system, are given as an executable model of the queue component.

* A run of a tool is taken in isolation: no other process acts between its
  first and its last call.  A call that would suspend the process ends the
  run with the outcome `blocked`, in the namespace reached so far.
* What the program does not decide is a parameter of the run (`Env`): the
  limits and defaults of the host, whether a call fails for a reason outside
  the queue state (permission, resources, a signal), whether `malloc` fails,
  and the bytes of objects that are read before being written.
* Reading a C string out of an object that holds no NUL ends the run with the
  outcome `undefined`.
* The constants of `declarations.h` are parameters (`Declarations`).
-/

namespace IpcMq

/-- One `char` of a C buffer. -/
abbrev Byte := Nat

/-- The constants of `declarations.h`.  That header is not among the source
files, so the three constants the programs use are parameters. -/
structure Declarations where
  QUEUE_NAME : String
  MSG_SIZE : Nat
  PRIORITY : Nat

/-- The error numbers the queue calls report. -/
inductive Errno
  | EACCES
  | EBADF
  | EINTR
  | EINVAL
  | EMSGSIZE
  | ENOENT
  | ENOMEM
deriving DecidableEq, Repr

/-- A failure whose cause lies outside the queue state: the caller lacks the
permission, the system has run out of a resource, or a signal interrupted the
call. -/
inductive Fault
  | denied
  | exhausted
  | interrupted
deriving DecidableEq, Repr

/-- The error number a fault is reported with. -/
def Fault.errno : Fault → Errno
  | .denied => .EACCES
  | .exhausted => .ENOMEM
  | .interrupted => .EINTR

/-- The C `struct mq_attr`. -/
structure MqAttr where
  mq_flags : Nat
  mq_maxmsg : Nat
  mq_msgsize : Nat
  mq_curmsgs : Nat
deriving DecidableEq, Repr

/-- A stored message: payload, priority, and the stamp of its insertion
(spec §3: a message is implicitly timestamped by insertion order). -/
structure Message where
  payload : List Byte
  prio : Nat
  seq : Nat
deriving DecidableEq, Repr

/-- A queue object: creation mode, capacity, maximum message size, the stored
messages in delivery order, and the stamp the next message gets. -/
structure MQ where
  mode : Nat
  maxmsg : Nat
  msgsize : Nat
  msgs : List Message
  clock : Nat
deriving DecidableEq, Repr

/-- The queue namespace of the host: which queue, if any, a name denotes. -/
@[ext]
structure Kernel where
  queues : String → Option MQ

/-- The namespace with `name` rebound to `q` (`none` removes the name). -/
def Kernel.set (k : Kernel) (name : String) (q : Option MQ) : Kernel :=
  { queues := fun n => if n = name then q else k.queues n }

/-- A newly created queue: no message stored yet. -/
def MQ.fresh (mode maxmsg msgsize : Nat) : MQ :=
  { mode := mode, maxmsg := maxmsg, msgsize := msgsize, msgs := [], clock := 0 }

/-- The namespace in which no queue exists. -/
def Kernel.empty : Kernel :=
  { queues := fun _ => none }

/-- The access mode of `oflag`: `O_RDONLY`, `O_WRONLY` or `O_RDWR`. -/
inductive Access
  | rdonly
  | wronly
  | rdwr
deriving DecidableEq, Repr

/-- The `oflag` argument of `mq_open`: the access mode and whether `O_CREAT`
is set. -/
structure OFlag where
  creat : Bool
  access : Access
deriving DecidableEq, Repr

/-- A queue descriptor (`mqd_t`): the queue it was opened on and its access
mode.  Within an isolated run the name keeps denoting the opened queue. -/
structure Mqd where
  name : String
  access : Access
deriving DecidableEq, Repr

/-- What surrounds a run and is not decided by the program: system limits and
defaults, faults of the calls, and the indeterminate content of objects the
program reads without having written them. -/
structure Env where
  msg_max : Nat
  msgsize_max : Nat
  msg_default : Nat
  msgsize_default : Nat
  prio_max : Nat
  open_fault : Option Fault
  send_fault : Option Fault
  receive_fault : Option Fault
  unlink_fault : Option Fault
  malloc_fails : Bool
  stack : List Byte
  heap : List Byte
  attr_uninit : MqAttr

/-- The result of a call that may suspend the caller. -/
inductive Call (α : Type)
  | ok : α → Call α
  | error : Errno → Call α
  | blocked : Call α

/-- Modelled from the spec: the validity check of `open` on creation (§4.1:
`InvalidConfig` if capacity or max-message-size are non-positive), within the
limits of the host.  The system call is not repository code. -/
def attr_ok (env : Env) (a : MqAttr) : Bool :=
  decide (0 < a.mq_maxmsg) && decide (a.mq_maxmsg ≤ env.msg_max) &&
    decide (0 < a.mq_msgsize) && decide (a.mq_msgsize ≤ env.msgsize_max)

/-- Modelled from the spec: `open` of §4.1, the system call `mq_open`, which
is not repository code.  An existing queue is opened and the attributes are
ignored; a missing one is created when `O_CREAT` is set, with the given
attributes or, for a null `attr`, the defaults of the host; otherwise the call
fails with `ENOENT`. -/
def mq_open (env : Env) (k : Kernel) (name : String) (oflag : OFlag) (mode : Nat)
    (attr : Option MqAttr) : Except Errno (Mqd × Kernel) :=
  match env.open_fault with
  | some f => .error f.errno
  | none =>
    match k.queues name with
    | some _ => .ok ({ name := name, access := oflag.access }, k)
    | none =>
      if oflag.creat then
        match attr with
        | none =>
          .ok ({ name := name, access := oflag.access },
            k.set name (some (MQ.fresh mode env.msg_default env.msgsize_default)))
        | some a =>
          if attr_ok env a then
            .ok ({ name := name, access := oflag.access },
              k.set name (some (MQ.fresh mode a.mq_maxmsg a.mq_msgsize)))
          else .error .EINVAL
      else .error .ENOENT

/-- Modelled from the spec: the system call `mq_getattr`, not repository code;
it reports the attributes and the occupancy of the open queue. -/
def mq_getattr (k : Kernel) (mqd : Mqd) : Except Errno MqAttr :=
  match k.queues mqd.name with
  | none => .error .EBADF
  | some q =>
    .ok { mq_flags := 0, mq_maxmsg := q.maxmsg, mq_msgsize := q.msgsize,
          mq_curmsgs := q.msgs.length }

/-- Modelled from the spec: the ordering of `send` in §4.1 (descending
priority, ties broken by insertion order): the new message goes behind every
stored message of the same or a higher priority. -/
def enqueue (m : Message) : List Message → List Message
  | [] => [m]
  | x :: xs => if x.prio < m.prio then m :: x :: xs else x :: enqueue m xs

/-- Modelled from the spec: `send` of §4.1, the system call `mq_send`, which
is not repository code.  The payload is the first `len` bytes at `msg_ptr`. -/
def mq_send (env : Env) (k : Kernel) (mqd : Mqd) (msg_ptr : List Byte) (len : Nat)
    (prio : Nat) : Call Kernel :=
  if env.prio_max ≤ prio then .error .EINVAL
  else
    match k.queues mqd.name with
    | none => .error .EBADF
    | some q =>
      if mqd.access = .rdonly then .error .EBADF
      else if q.msgsize < len then .error .EMSGSIZE
      else
        match env.send_fault with
        | some f => .error f.errno
        | none =>
          if q.maxmsg ≤ q.msgs.length then .blocked
          else
            .ok (k.set mqd.name (some
              { q with
                msgs := enqueue { payload := msg_ptr.take len, prio := prio, seq := q.clock }
                  q.msgs,
                clock := q.clock + 1 }))

/-- Modelled from the spec: `receive` of §4.1, the system call `mq_receive`,
which is not repository code.  It takes the first message in delivery order
out of the queue. -/
def mq_receive (env : Env) (k : Kernel) (mqd : Mqd) (msg_len : Nat) :
    Call (Message × Kernel) :=
  match k.queues mqd.name with
  | none => .error .EBADF
  | some q =>
    if mqd.access = .wronly then .error .EBADF
    else if msg_len < q.msgsize then .error .EMSGSIZE
    else
      match env.receive_fault with
      | some f => .error f.errno
      | none =>
        match q.msgs with
        | [] => .blocked
        | m :: rest => .ok (m, k.set mqd.name (some { q with msgs := rest }))

/-- Modelled from the spec: `close` of §4.1, the system call `mq_close`; it
releases the descriptor and leaves the queue alone. -/
def mq_close (_mqd : Mqd) : Except Errno Unit :=
  .ok ()

/-- Modelled from the spec: `delete` of §4.1, the system call `mq_unlink`,
which is not repository code. -/
def mq_unlink (env : Env) (k : Kernel) (name : String) : Except Errno Kernel :=
  match k.queues name with
  | none => .error .ENOENT
  | some _ =>
    match env.unlink_fault with
    | some f => .error f.errno
    | none => .ok (k.set name none)

/-- The bytes of a string literal. -/
def bytes (s : String) : List Byte :=
  s.toList.map Char.toNat

/-- The bytes `fgets` takes from the stream: at most `n`, ending with the
first newline. -/
def readLine : Nat → List Byte → List Byte
  | 0, _ => []
  | _ + 1, [] => []
  | n + 1, c :: cs => if c = 10 then [c] else c :: readLine n cs

/-- The line `fgets(s, size, stream)` stores, `none` when it returns `NULL`
(nothing could be read). -/
def inputLine (size : Nat) (stream : List Byte) : Option (List Byte) :=
  if size = 0 then none
  else if readLine (size - 1) stream = [] ∧ 1 < size then none
  else some (readLine (size - 1) stream)

/-- The C library's `fgets(s, size, stream)`: the content of `s` afterwards,
the line and its terminating NUL over the old bytes, or `none` for `NULL`,
which leaves `s` as it was. -/
def fgets (s : List Byte) (size : Nat) (stream : List Byte) : Option (List Byte) :=
  (inputLine size stream).map fun line => line ++ 0 :: s.drop (line.length + 1)

/-- The C library's `strlen`: the index of the first NUL, `none` when the
object holds no NUL (the read runs past its end). -/
def strlen : List Byte → Option Nat
  | [] => none
  | c :: cs => if c = 0 then some 0 else (strlen cs).map (· + 1)

/-- The bytes of a C string: those before its first NUL. -/
def upToNul : List Byte → List Byte
  | [] => []
  | c :: cs => if c = 0 then [] else c :: upToNul cs

/-- The error a call returned, `none` when it succeeded. -/
def failure {α : Type} : Except Errno α → Option Errno
  | .ok _ => none
  | .error e => some e

/-- How a run ends: `exit code`, suspended in a blocking call, or undefined
behaviour. -/
inductive Outcome
  | exit : Nat → Outcome
  | blocked
  | undefined
deriving DecidableEq, Repr

/-- What a run leaves: its outcome, the queue namespace, the bytes written to
standard output, the `perror` reports (label and error number), and the queue
calls that returned, in order, each with the error it returned, if any. -/
structure Run where
  outcome : Outcome
  kernel : Kernel
  stdout : List Byte
  stderr : List (String × Errno)
  calls : List (String × Option Errno)

/-- The attributes `sender.c` fills in before `mq_open` (lines 9-12). -/
def Sender.attr (d : Declarations) : MqAttr :=
  { mq_flags := 0, mq_maxmsg := 10, mq_msgsize := d.MSG_SIZE, mq_curmsgs := 0 }

/-- The content of `message` after the `fgets` call of `sender.c` (line 21),
whose result the program does not inspect: the array starts out with the
indeterminate bytes of the stack. -/
def Sender.message (d : Declarations) (env : Env) (stdin : List Byte) : List Byte :=
  (fgets (env.stack.take d.MSG_SIZE) d.MSG_SIZE stdin).getD (env.stack.take d.MSG_SIZE)

/-- The `main` of `sender.c`. -/
def Sender.main (d : Declarations) (env : Env) (k : Kernel) (stdin : List Byte) : Run :=
  match mq_open env k d.QUEUE_NAME { creat := true, access := .wronly } 0o644
    (some (Sender.attr d)) with
  | .error e =>
    { outcome := .exit 1, kernel := k, stdout := [], stderr := [("mq_open", e)],
      calls := [("mq_open", some e)] }
  | .ok (mq, k1) =>
    match strlen (Sender.message d env stdin) with
    | none =>
      { outcome := .undefined, kernel := k1, stdout := bytes "Send a message: ", stderr := [],
        calls := [("mq_open", none)] }
    | some n =>
      match mq_send env k1 mq (Sender.message d env stdin) (n + 1) d.PRIORITY with
      | .error e =>
        { outcome := .exit 1, kernel := k1, stdout := bytes "Send a message: ",
          stderr := [("mq_send", e)], calls := [("mq_open", none), ("mq_send", some e)] }
      | .blocked =>
        { outcome := .blocked, kernel := k1, stdout := bytes "Send a message: ", stderr := [],
          calls := [("mq_open", none)] }
      | .ok k2 =>
        { outcome := .exit 0, kernel := k2, stdout := bytes "Send a message: ", stderr := [],
          calls := [("mq_open", none), ("mq_send", none), ("mq_close", failure (mq_close mq))] }

/-- The attributes the receiver works with after its `mq_getattr` call
(line 15), whose result the program does not inspect: on failure `attr` keeps
its indeterminate content. -/
def Receiver.attr (env : Env) (k : Kernel) (mq : Mqd) : MqAttr :=
  match mq_getattr k mq with
  | .ok a => a
  | .error _ => env.attr_uninit

/-- The content of `buffer` after the `mq_receive` call of `receiver.c`
(line 22): the payload of the message over the indeterminate bytes of the
`size` bytes that `malloc` returned. -/
def Receiver.buffer (env : Env) (size : Nat) (m : Message) : List Byte :=
  m.payload ++ (env.heap.take size).drop m.payload.length

/-- The namespace after the `mq_unlink` call of `receiver.c` (line 33), whose
result the program does not inspect. -/
def Receiver.unlinked (d : Declarations) (env : Env) (k : Kernel) : Kernel :=
  match mq_unlink env k d.QUEUE_NAME with
  | .ok k1 => k1
  | .error _ => k

/-- The `main` of `receiver.c`. -/
def Receiver.main (d : Declarations) (env : Env) (k : Kernel) : Run :=
  match mq_open env k d.QUEUE_NAME { creat := true, access := .rdonly } 0o644 none with
  | .error e =>
    { outcome := .exit 1, kernel := k, stdout := [], stderr := [("mq_open", e)],
      calls := [("mq_open", some e)] }
  | .ok (mq, k1) =>
    if env.malloc_fails then
      { outcome := .exit 1, kernel := k1, stdout := [], stderr := [("malloc", .ENOMEM)],
        calls := [("mq_open", none), ("mq_getattr", failure (mq_getattr k1 mq))] }
    else
      match mq_receive env k1 mq (Receiver.attr env k1 mq).mq_msgsize with
      | .error e =>
        { outcome := .exit 1, kernel := k1, stdout := [], stderr := [("mq_receive", e)],
          calls := [("mq_open", none), ("mq_getattr", failure (mq_getattr k1 mq)),
            ("mq_receive", some e)] }
      | .blocked =>
        { outcome := .blocked, kernel := k1, stdout := [], stderr := [],
          calls := [("mq_open", none), ("mq_getattr", failure (mq_getattr k1 mq))] }
      | .ok (m, k2) =>
        match strlen (Receiver.buffer env (Receiver.attr env k1 mq).mq_msgsize m) with
        | none =>
          { outcome := .undefined, kernel := k2, stdout := [], stderr := [],
            calls := [("mq_open", none), ("mq_getattr", failure (mq_getattr k1 mq)),
              ("mq_receive", none)] }
        | some _ =>
          { outcome := .exit 0, kernel := Receiver.unlinked d env k2,
            stdout := bytes "Received message: " ++
              upToNul (Receiver.buffer env (Receiver.attr env k1 mq).mq_msgsize m),
            stderr := [],
            calls := [("mq_open", none), ("mq_getattr", failure (mq_getattr k1 mq)),
              ("mq_receive", none), ("mq_close", failure (mq_close mq)),
              ("mq_unlink", failure (mq_unlink env k2 d.QUEUE_NAME))] }

/-- Delivery order: `a` is handed out before `b` when its priority is higher,
or equal with an earlier insertion stamp. -/
def Message.before (a b : Message) : Prop :=
  b.prio < a.prio ∨ (a.prio = b.prio ∧ a.seq < b.seq)

/-- The messages of a queue are stored in delivery order and every stamp
handed out lies below the clock. -/
def MQ.wf (q : MQ) : Prop :=
  q.msgs.Pairwise Message.before ∧ ∀ m ∈ q.msgs, m.seq < q.clock

/-- The namespaces the queue calls produce from the one without queues. -/
inductive Reachable : Kernel → Prop
  | boot : Reachable Kernel.empty
  | opened (env : Env) (k : Kernel) (name : String) (oflag : OFlag) (mode : Nat)
      (attr : Option MqAttr) (mqd : Mqd) (k1 : Kernel) :
      Reachable k → mq_open env k name oflag mode attr = .ok (mqd, k1) → Reachable k1
  | sent (env : Env) (k : Kernel) (mqd : Mqd) (msg_ptr : List Byte) (len prio : Nat)
      (k1 : Kernel) :
      Reachable k → mq_send env k mqd msg_ptr len prio = .ok k1 → Reachable k1
  | received (env : Env) (k : Kernel) (mqd : Mqd) (msg_len : Nat) (m : Message)
      (k1 : Kernel) :
      Reachable k → mq_receive env k mqd msg_len = .ok (m, k1) → Reachable k1
  | unlinked (env : Env) (k : Kernel) (name : String) (k1 : Kernel) :
      Reachable k → mq_unlink env k name = .ok k1 → Reachable k1

/-- The namespaces in which the named queue is one a sender run created: the
runs of the two tools that follow keep it as long as the name still exists
after them (no run both unlinks the queue and creates it anew). -/
inductive SenderQueue (d : Declarations) : Kernel → Prop
  | created (env : Env) (stdin : List Byte) (k : Kernel) :
      k.queues d.QUEUE_NAME = none →
      ((Sender.main d env k stdin).kernel.queues d.QUEUE_NAME).isSome = true →
      SenderQueue d (Sender.main d env k stdin).kernel
  | sender (env : Env) (stdin : List Byte) (k : Kernel) :
      SenderQueue d k → SenderQueue d (Sender.main d env k stdin).kernel
  | receiver (env : Env) (k : Kernel) :
      SenderQueue d k →
      ((Receiver.main d env k).kernel.queues d.QUEUE_NAME).isSome = true →
      SenderQueue d (Receiver.main d env k).kernel

/-- The namespaces that runs of the two tools, on any host, reach from one in
which the named queue is one a sender run created; unlinks and new creations
of the queue are included. -/
inductive ToolReach (d : Declarations) : Kernel → Prop
  | start (k : Kernel) : SenderQueue d k → ToolReach d k
  | sender (env : Env) (stdin : List Byte) (k : Kernel) :
      ToolReach d k → ToolReach d (Sender.main d env k stdin).kernel
  | receiver (env : Env) (k : Kernel) :
      ToolReach d k → ToolReach d (Receiver.main d env k).kernel

/-- Sends the listed payloads, each with its priority, one after the other;
`none` when a send does not complete. -/
def sendAll (env : Env) (mqd : Mqd) : Kernel → List (List Byte × Nat) → Option Kernel
  | k, [] => some k
  | k, (p, prio) :: rest =>
    match mq_send env k mqd p p.length prio with
    | .ok k1 => sendAll env mqd k1 rest
    | _ => none

/-- Receives `n` messages one after the other and lists them in the order
received; `none` when a receive does not complete. -/
def receiveAll (env : Env) (mqd : Mqd) (msg_len : Nat) : Nat → Kernel → Option (List Message)
  | 0, _ => some []
  | n + 1, k =>
    match mq_receive env k mqd msg_len with
    | .ok (m, k1) => (receiveAll env mqd msg_len n k1).map (m :: ·)
    | _ => none

/-- Sample constants for the concrete runs below. -/
def sampleDecl : Declarations :=
  { QUEUE_NAME := "/test_queue", MSG_SIZE := 256, PRIORITY := 1 }

/-- A host with the customary limits on which no call faults. -/
def quietEnv : Env :=
  { msg_max := 10, msgsize_max := 8192, msg_default := 10, msgsize_default := 8192,
    prio_max := 32768, open_fault := none, send_fault := none, receive_fault := none,
    unlink_fault := none, malloc_fails := false, stack := [], heap := [],
    attr_uninit := { mq_flags := 0, mq_maxmsg := 0, mq_msgsize := 0, mq_curmsgs := 0 } }

/-- The host `quietEnv` for a caller who may not unlink the queue. -/
def deniedEnv : Env :=
  { quietEnv with unlink_fault := some .denied }

/-- The host `quietEnv` when the allocation of the receiver fails. -/
def noMemEnv : Env :=
  { quietEnv with malloc_fails := true }

/-- The input line `hi`, newline. -/
def sampleLine : List Byte :=
  [104, 105, 10]

/-- The namespace after one sender run on `sampleLine`: the named queue holds
that one message. -/
def oneMessage : Kernel :=
  (Sender.main sampleDecl quietEnv Kernel.empty sampleLine).kernel

/-- The namespace after a second sender run, on the line `yo`, newline: the
named queue holds two messages. -/
def twoMessages : Kernel :=
  (Sender.main sampleDecl quietEnv oneMessage [121, 111, 10]).kernel

/-- The namespace after `n + 1` sender runs on `sampleLine`. -/
def sendTimes : Nat → Kernel
  | 0 => oneMessage
  | n + 1 => (Sender.main sampleDecl quietEnv (sendTimes n) sampleLine).kernel

/-- The host `quietEnv` with a default capacity of 20. -/
def bigHost : Env :=
  { quietEnv with msg_default := 20 }

/-- The namespace after this history: a sender run creates the queue
(`oneMessage`), a receiver run takes the message and unlinks the queue, a
receiver run on `bigHost` creates the queue anew, and `n` sender runs on
`sampleLine` follow. -/
def refill : Nat → Kernel
  | 0 =>
    (Receiver.main sampleDecl bigHost
      (Receiver.main sampleDecl quietEnv oneMessage).kernel).kernel
  | n + 1 => (Sender.main sampleDecl quietEnv (refill n) sampleLine).kernel

/-! ## C strings and `fgets` -/

theorem strlen_spec (s : List Byte) (n : Nat) (h : strlen s = some n) :
    s.take (n + 1) = upToNul s ++ [0] ∧ (upToNul s).length = n ∧ n < s.length := by
  induction s generalizing n with
  | nil => simp [strlen] at h
  | cons c cs ih =>
    by_cases hc : c = 0
    · subst hc
      simp [strlen] at h
      subst h
      simp [upToNul]
    · simp only [strlen, hc, if_false, Option.map_eq_some'] at h
      obtain ⟨m, hm, rfl⟩ := h
      obtain ⟨h1, h2, h3⟩ := ih m hm
      simp [upToNul, hc, h1, h2, h3]

theorem strlen_append_nul (l t : List Byte) :
    strlen (l ++ 0 :: t) = some (upToNul l).length := by
  induction l with
  | nil => simp [strlen, upToNul]
  | cons c cs ih =>
    by_cases hc : c = 0
    · simp [strlen, upToNul, hc]
    · simp [strlen, upToNul, hc, ih]

theorem upToNul_append_nul (l t : List Byte) : upToNul (l ++ 0 :: t) = upToNul l := by
  induction l with
  | nil => simp [upToNul]
  | cons c cs ih =>
    by_cases hc : c = 0
    · simp [upToNul, hc]
    · simp [upToNul, hc, ih]

theorem upToNul_of_not_mem (l : List Byte) (h : 0 ∉ l) : upToNul l = l := by
  induction l with
  | nil => rfl
  | cons c cs ih =>
    simp only [List.mem_cons, not_or] at h
    have hc : c ≠ 0 := fun e => h.1 e.symm
    simp [upToNul, hc, ih h.2]

theorem upToNul_length_le (l : List Byte) : (upToNul l).length ≤ l.length := by
  induction l with
  | nil => simp [upToNul]
  | cons c cs ih =>
    by_cases hc : c = 0
    · simp [upToNul, hc]
    · simp [upToNul, hc]
      omega

theorem readLine_length_le (n : Nat) (s : List Byte) : (readLine n s).length ≤ n := by
  induction n generalizing s with
  | zero => simp [readLine]
  | succ n ih =>
    cases s with
    | nil => simp [readLine]
    | cons c cs =>
      by_cases hc : c = 10
      · simp [readLine, hc]
      · simp [readLine, hc]
        exact ih cs

theorem inputLine_some (size : Nat) (s L : List Byte) (h : inputLine size s = some L) :
    0 < size ∧ L.length + 1 ≤ size := by
  unfold inputLine at h
  split at h
  · simp at h
  · split at h
    · simp at h
    · simp only [Option.some.injEq] at h
      subst h
      have := readLine_length_le (size - 1) s
      omega

theorem message_of_line (d : Declarations) (env : Env) (stdin L : List Byte)
    (h : inputLine d.MSG_SIZE stdin = some L) :
    Sender.message d env stdin = L ++ 0 :: (env.stack.take d.MSG_SIZE).drop (L.length + 1) := by
  simp [Sender.message, fgets, h]

theorem strlen_message_of_line (d : Declarations) (env : Env) (stdin L : List Byte)
    (h : inputLine d.MSG_SIZE stdin = some L) :
    strlen (Sender.message d env stdin) = some (upToNul L).length := by
  rw [message_of_line d env stdin L h, strlen_append_nul]

theorem payload_of_line (d : Declarations) (env : Env) (stdin L : List Byte)
    (h : inputLine d.MSG_SIZE stdin = some L) :
    (Sender.message d env stdin).take ((upToNul L).length + 1) = upToNul L ++ [0] := by
  have h1 := strlen_message_of_line d env stdin L h
  have h2 := (strlen_spec _ _ h1).1
  rw [h2, message_of_line d env stdin L h, upToNul_append_nul]

/-! ## The queue namespace -/

@[simp]
theorem Kernel.set_same (k : Kernel) (name : String) (q : Option MQ) :
    (k.set name q).queues name = q := by
  simp [Kernel.set]

theorem Kernel.set_other (k : Kernel) (name n : String) (q : Option MQ) (h : n ≠ name) :
    (k.set name q).queues n = k.queues n := by
  simp [Kernel.set, h]

/-! ## The queue calls -/

theorem mq_open_ok (env : Env) (k : Kernel) (name : String) (oflag : OFlag) (mode : Nat)
    (attr : Option MqAttr) (mqd : Mqd) (k1 : Kernel)
    (h : mq_open env k name oflag mode attr = .ok (mqd, k1)) :
    mqd = { name := name, access := oflag.access } ∧ env.open_fault = none ∧
    ((∃ q, k.queues name = some q ∧ k1 = k) ∨
      (k.queues name = none ∧ oflag.creat = true ∧
        ((attr = none ∧
            k1 = k.set name (some (MQ.fresh mode env.msg_default env.msgsize_default))) ∨
          (∃ a, attr = some a ∧ attr_ok env a = true ∧
            k1 = k.set name (some (MQ.fresh mode a.mq_maxmsg a.mq_msgsize)))))) := by
  unfold mq_open at h
  cases hf : env.open_fault with
  | some f => simp [hf] at h
  | none =>
    cases hq : k.queues name with
    | some q =>
      simp only [hf, hq, Except.ok.injEq, Prod.mk.injEq] at h
      exact ⟨h.1.symm, rfl, Or.inl ⟨q, rfl, h.2.symm⟩⟩
    | none =>
      cases hc : oflag.creat with
      | false => simp [hf, hq, hc] at h
      | true =>
        cases attr with
        | none =>
          simp only [hf, hq, hc, if_true, Except.ok.injEq, Prod.mk.injEq] at h
          exact ⟨h.1.symm, rfl, Or.inr ⟨rfl, rfl, Or.inl ⟨rfl, h.2.symm⟩⟩⟩
        | some a =>
          cases ha : attr_ok env a with
          | false => simp [hf, hq, hc, ha] at h
          | true =>
            simp only [hf, hq, hc, ha, if_true, Except.ok.injEq, Prod.mk.injEq] at h
            exact ⟨h.1.symm, rfl, Or.inr ⟨rfl, rfl, Or.inr ⟨a, rfl, ha, h.2.symm⟩⟩⟩

theorem mq_open_error (env : Env) (k : Kernel) (name : String) (oflag : OFlag) (mode : Nat)
    (attr : Option MqAttr) (e : Errno) (h : mq_open env k name oflag mode attr = .error e) :
    (∃ f, env.open_fault = some f ∧ e = f.errno) ∨
      (env.open_fault = none ∧ k.queues name = none ∧
        ((oflag.creat = false ∧ e = .ENOENT) ∨
          (oflag.creat = true ∧ e = .EINVAL ∧ ∃ a, attr = some a ∧ attr_ok env a = false))) := by
  unfold mq_open at h
  cases hf : env.open_fault with
  | some f =>
    simp only [hf, Except.error.injEq] at h
    exact Or.inl ⟨f, rfl, h.symm⟩
  | none =>
    cases hq : k.queues name with
    | some q => simp [hf, hq] at h
    | none =>
      cases hc : oflag.creat with
      | false =>
        simp only [hf, hq, hc, Bool.false_eq_true, if_false, Except.error.injEq] at h
        exact Or.inr ⟨rfl, rfl, Or.inl ⟨rfl, h.symm⟩⟩
      | true =>
        cases attr with
        | none => simp [hf, hq, hc] at h
        | some a =>
          cases ha : attr_ok env a with
          | true => simp [hf, hq, hc, ha] at h
          | false =>
            simp only [hf, hq, hc, ha, if_true, Bool.false_eq_true, if_false,
              Except.error.injEq] at h
            exact Or.inr ⟨rfl, rfl, Or.inr ⟨rfl, h.symm, a, rfl, ha⟩⟩

theorem mq_open_existing (env : Env) (k : Kernel) (name : String) (oflag : OFlag) (mode : Nat)
    (attr : Option MqAttr) (q : MQ) (hf : env.open_fault = none) (hq : k.queues name = some q) :
    mq_open env k name oflag mode attr = .ok ({ name := name, access := oflag.access }, k) := by
  simp [mq_open, hf, hq]

theorem mq_send_ok (env : Env) (k : Kernel) (mqd : Mqd) (p : List Byte) (len prio : Nat)
    (k1 : Kernel) (h : mq_send env k mqd p len prio = .ok k1) :
    ∃ q, k.queues mqd.name = some q ∧ prio < env.prio_max ∧ mqd.access ≠ .rdonly ∧
      len ≤ q.msgsize ∧ env.send_fault = none ∧ q.msgs.length < q.maxmsg ∧
      k1 = k.set mqd.name (some
        { q with
          msgs := enqueue { payload := p.take len, prio := prio, seq := q.clock } q.msgs,
          clock := q.clock + 1 }) := by
  unfold mq_send at h
  split at h
  · simp at h
  · rename_i hp
    cases hq : k.queues mqd.name with
    | none => simp [hq] at h
    | some q =>
      simp only [hq] at h
      split at h
      · simp at h
      · rename_i ha
        split at h
        · simp at h
        · rename_i hl
          cases hs : env.send_fault with
          | some f => simp [hs] at h
          | none =>
            simp only [hs] at h
            split at h
            · simp at h
            · rename_i hc
              simp only [Call.ok.injEq] at h
              exact ⟨q, rfl, by omega, ha, by omega, rfl, by omega, h.symm⟩

theorem mq_send_blocked (env : Env) (k : Kernel) (mqd : Mqd) (p : List Byte) (len prio : Nat)
    (h : mq_send env k mqd p len prio = .blocked) :
    ∃ q, k.queues mqd.name = some q ∧ q.maxmsg ≤ q.msgs.length := by
  unfold mq_send at h
  split at h
  · simp at h
  · cases hq : k.queues mqd.name with
    | none => simp [hq] at h
    | some q =>
      simp only [hq] at h
      split at h
      · simp at h
      · split at h
        · simp at h
        · cases hs : env.send_fault with
          | some f => simp [hs] at h
          | none =>
            simp only [hs] at h
            split at h
            · rename_i hc
              exact ⟨q, rfl, hc⟩
            · simp at h

theorem mq_send_emsgsize (env : Env) (k : Kernel) (mqd : Mqd) (p : List Byte) (len prio : Nat)
    (h : mq_send env k mqd p len prio = .error .EMSGSIZE) :
    ∃ q, k.queues mqd.name = some q ∧ q.msgsize < len := by
  unfold mq_send at h
  split at h
  · simp at h
  · cases hq : k.queues mqd.name with
    | none => simp [hq] at h
    | some q =>
      simp only [hq] at h
      split at h
      · simp at h
      · split at h
        · rename_i hl
          exact ⟨q, rfl, hl⟩
        · cases hs : env.send_fault with
          | some f => cases f <;> simp [hs, Fault.errno] at h
          | none =>
            simp only [hs] at h
            split at h <;> simp at h

theorem mq_send_eq (env : Env) (k : Kernel) (mqd : Mqd) (p : List Byte) (len prio : Nat)
    (q : MQ) (hq : k.queues mqd.name = some q) (hp : prio < env.prio_max)
    (ha : mqd.access ≠ .rdonly) (hl : len ≤ q.msgsize) (hs : env.send_fault = none) :
    mq_send env k mqd p len prio =
      if q.maxmsg ≤ q.msgs.length then .blocked
      else .ok (k.set mqd.name (some
        { q with
          msgs := enqueue { payload := p.take len, prio := prio, seq := q.clock } q.msgs,
          clock := q.clock + 1 })) := by
  have hp2 : ¬ env.prio_max ≤ prio := by omega
  have hl2 : ¬ q.msgsize < len := by omega
  simp [mq_send, hq, hp2, ha, hl2, hs]

theorem mq_receive_ok (env : Env) (k : Kernel) (mqd : Mqd) (len : Nat) (m : Message)
    (k1 : Kernel) (h : mq_receive env k mqd len = .ok (m, k1)) :
    ∃ q rest, k.queues mqd.name = some q ∧ q.msgs = m :: rest ∧ mqd.access ≠ .wronly ∧
      q.msgsize ≤ len ∧ env.receive_fault = none ∧
      k1 = k.set mqd.name (some { q with msgs := rest }) := by
  unfold mq_receive at h
  cases hq : k.queues mqd.name with
  | none => simp [hq] at h
  | some q =>
    simp only [hq] at h
    split at h
    · simp at h
    · rename_i ha
      split at h
      · simp at h
      · rename_i hl
        cases hs : env.receive_fault with
        | some f => simp [hs] at h
        | none =>
          simp only [hs] at h
          cases hm : q.msgs with
          | nil => simp [hm] at h
          | cons x rest =>
            simp only [hm, Call.ok.injEq, Prod.mk.injEq] at h
            obtain ⟨h1, h2⟩ := h
            subst h1
            exact ⟨q, rest, rfl, hm, ha, by omega, rfl, h2.symm⟩

theorem mq_receive_eq (env : Env) (k : Kernel) (mqd : Mqd) (len : Nat) (q : MQ)
    (hq : k.queues mqd.name = some q) (ha : mqd.access ≠ .wronly) (hl : q.msgsize ≤ len)
    (hs : env.receive_fault = none) :
    mq_receive env k mqd len =
      match q.msgs with
      | [] => .blocked
      | m :: rest => .ok (m, k.set mqd.name (some { q with msgs := rest })) := by
  have hl2 : ¬ len < q.msgsize := by omega
  simp [mq_receive, hq, ha, hl2, hs]

theorem mq_receive_error (env : Env) (k : Kernel) (mqd : Mqd) (len : Nat) (e : Errno)
    (h : mq_receive env k mqd len = .error e) : e ≠ .ENOENT := by
  unfold mq_receive at h
  cases hq : k.queues mqd.name with
  | none =>
    simp only [hq, Call.error.injEq] at h
    subst h
    decide
  | some q =>
    simp only [hq] at h
    split at h
    · simp only [Call.error.injEq] at h
      subst h
      decide
    · split at h
      · simp only [Call.error.injEq] at h
        subst h
        decide
      · cases hs : env.receive_fault with
        | some f =>
          simp only [hs, Call.error.injEq] at h
          subst h
          cases f <;> decide
        | none =>
          simp only [hs] at h
          split at h <;> simp at h

/-! ## The paths through the two programs -/

theorem sender_paths (d : Declarations) (env : Env) (k : Kernel) (stdin : List Byte) :
    (∃ e, mq_open env k d.QUEUE_NAME { creat := true, access := .wronly } 0o644
          (some (Sender.attr d)) = .error e ∧
        Sender.main d env k stdin =
          { outcome := .exit 1, kernel := k, stdout := [], stderr := [("mq_open", e)],
            calls := [("mq_open", some e)] }) ∨
    (∃ k1, mq_open env k d.QUEUE_NAME { creat := true, access := .wronly } 0o644
          (some (Sender.attr d)) = .ok ({ name := d.QUEUE_NAME, access := .wronly }, k1) ∧
      ((strlen (Sender.message d env stdin) = none ∧
          Sender.main d env k stdin =
            { outcome := .undefined, kernel := k1, stdout := bytes "Send a message: ",
              stderr := [], calls := [("mq_open", none)] }) ∨
        (∃ n, strlen (Sender.message d env stdin) = some n ∧
          ((∃ e, mq_send env k1 { name := d.QUEUE_NAME, access := .wronly }
                (Sender.message d env stdin) (n + 1) d.PRIORITY = .error e ∧
              Sender.main d env k stdin =
                { outcome := .exit 1, kernel := k1, stdout := bytes "Send a message: ",
                  stderr := [("mq_send", e)],
                  calls := [("mq_open", none), ("mq_send", some e)] }) ∨
            (mq_send env k1 { name := d.QUEUE_NAME, access := .wronly }
                (Sender.message d env stdin) (n + 1) d.PRIORITY = .blocked ∧
              Sender.main d env k stdin =
                { outcome := .blocked, kernel := k1, stdout := bytes "Send a message: ",
                  stderr := [], calls := [("mq_open", none)] }) ∨
            (∃ k2, mq_send env k1 { name := d.QUEUE_NAME, access := .wronly }
                (Sender.message d env stdin) (n + 1) d.PRIORITY = .ok k2 ∧
              Sender.main d env k stdin =
                { outcome := .exit 0, kernel := k2, stdout := bytes "Send a message: ",
                  stderr := [],
                  calls := [("mq_open", none), ("mq_send", none), ("mq_close", none)] }))))) := by
  cases ho : mq_open env k d.QUEUE_NAME { creat := true, access := .wronly } 0o644
      (some (Sender.attr d)) with
  | error e =>
    left
    exact ⟨e, rfl, by simp [Sender.main, ho]⟩
  | ok r =>
    obtain ⟨mq, k1⟩ := r
    have hmq := (mq_open_ok _ _ _ _ _ _ _ _ ho).1
    simp only at hmq
    subst hmq
    right
    refine ⟨k1, rfl, ?_⟩
    cases hn : strlen (Sender.message d env stdin) with
    | none =>
      left
      exact ⟨rfl, by simp [Sender.main, ho, hn]⟩
    | some n =>
      right
      refine ⟨n, rfl, ?_⟩
      cases hs : mq_send env k1 { name := d.QUEUE_NAME, access := .wronly }
          (Sender.message d env stdin) (n + 1) d.PRIORITY with
      | error e =>
        left
        exact ⟨e, rfl, by simp [Sender.main, ho, hn, hs]⟩
      | blocked =>
        right
        left
        exact ⟨rfl, by simp [Sender.main, ho, hn, hs]⟩
      | ok k2 =>
        right
        right
        exact ⟨k2, rfl, by simp [Sender.main, ho, hn, hs, failure, mq_close]⟩

theorem receiver_paths (d : Declarations) (env : Env) (k : Kernel) :
    (∃ e, mq_open env k d.QUEUE_NAME { creat := true, access := .rdonly } 0o644 none
          = .error e ∧
        Receiver.main d env k =
          { outcome := .exit 1, kernel := k, stdout := [], stderr := [("mq_open", e)],
            calls := [("mq_open", some e)] }) ∨
    (∃ k1 q, mq_open env k d.QUEUE_NAME { creat := true, access := .rdonly } 0o644 none
          = .ok ({ name := d.QUEUE_NAME, access := .rdonly }, k1) ∧
      k1.queues d.QUEUE_NAME = some q ∧
      ((env.malloc_fails = true ∧
          Receiver.main d env k =
            { outcome := .exit 1, kernel := k1, stdout := [], stderr := [("malloc", .ENOMEM)],
              calls := [("mq_open", none), ("mq_getattr", none)] }) ∨
        (env.malloc_fails = false ∧
          ((∃ e, mq_receive env k1 { name := d.QUEUE_NAME, access := .rdonly } q.msgsize
                = .error e ∧
              Receiver.main d env k =
                { outcome := .exit 1, kernel := k1, stdout := [],
                  stderr := [("mq_receive", e)],
                  calls := [("mq_open", none), ("mq_getattr", none),
                    ("mq_receive", some e)] }) ∨
            (mq_receive env k1 { name := d.QUEUE_NAME, access := .rdonly } q.msgsize
                = .blocked ∧
              Receiver.main d env k =
                { outcome := .blocked, kernel := k1, stdout := [], stderr := [],
                  calls := [("mq_open", none), ("mq_getattr", none)] }) ∨
            (∃ m k2, mq_receive env k1 { name := d.QUEUE_NAME, access := .rdonly } q.msgsize
                = .ok (m, k2) ∧
              ((strlen (Receiver.buffer env q.msgsize m) = none ∧
                  Receiver.main d env k =
                    { outcome := .undefined, kernel := k2, stdout := [], stderr := [],
                      calls := [("mq_open", none), ("mq_getattr", none),
                        ("mq_receive", none)] }) ∨
                (strlen (Receiver.buffer env q.msgsize m) ≠ none ∧
                  Receiver.main d env k =
                    { outcome := .exit 0, kernel := Receiver.unlinked d env k2,
                      stdout := bytes "Received message: " ++
                        upToNul (Receiver.buffer env q.msgsize m),
                      stderr := [],
                      calls := [("mq_open", none), ("mq_getattr", none),
                        ("mq_receive", none), ("mq_close", none),
                        ("mq_unlink", failure (mq_unlink env k2 d.QUEUE_NAME))] }))))))) := by
  cases ho : mq_open env k d.QUEUE_NAME { creat := true, access := .rdonly } 0o644 none with
  | error e =>
    left
    exact ⟨e, rfl, by simp [Receiver.main, ho]⟩
  | ok r =>
    obtain ⟨mq, k1⟩ := r
    obtain ⟨hmq, -, hk⟩ := mq_open_ok _ _ _ _ _ _ _ _ ho
    simp only at hmq
    subst hmq
    have hq : ∃ q, k1.queues d.QUEUE_NAME = some q := by
      rcases hk with ⟨q, hq, rfl⟩ | ⟨-, -, ⟨-, rfl⟩ | ⟨a, ha, -⟩⟩
      · exact ⟨q, hq⟩
      · exact ⟨_, Kernel.set_same _ _ _⟩
      · simp at ha
    obtain ⟨q, hq⟩ := hq
    right
    refine ⟨k1, q, rfl, hq, ?_⟩
    have hattr : (Receiver.attr env k1 { name := d.QUEUE_NAME, access := .rdonly }).mq_msgsize
        = q.msgsize := by
      simp [Receiver.attr, mq_getattr, hq]
    have hget : failure (mq_getattr k1 { name := d.QUEUE_NAME, access := .rdonly }) = none := by
      simp [failure, mq_getattr, hq]
    cases hm : env.malloc_fails with
    | true =>
      left
      exact ⟨rfl, by simp [Receiver.main, ho, hm, hget]⟩
    | false =>
      right
      refine ⟨rfl, ?_⟩
      cases hr : mq_receive env k1 { name := d.QUEUE_NAME, access := .rdonly } q.msgsize with
      | error e =>
        left
        exact ⟨e, rfl, by simp [Receiver.main, ho, hm, hget, hattr, hr]⟩
      | blocked =>
        right
        left
        exact ⟨rfl, by simp [Receiver.main, ho, hm, hget, hattr, hr]⟩
      | ok r =>
        obtain ⟨m, k2⟩ := r
        right
        right
        refine ⟨m, k2, rfl, ?_⟩
        cases hn : strlen (Receiver.buffer env q.msgsize m) with
        | none =>
          left
          exact ⟨rfl, by simp [Receiver.main, ho, hm, hget, hattr, hr, hn]⟩
        | some n =>
          right
          have hclose : failure (mq_close { name := d.QUEUE_NAME, access := .rdonly }) = none := rfl
          exact ⟨by simp, by simp [Receiver.main, ho, hm, hget, hattr, hr, hn, hclose]⟩

theorem Kernel.set_set (k : Kernel) (name : String) (a b : Option MQ) :
    (k.set name a).set name b = k.set name b := by
  ext n : 2
  by_cases hn : n = name <;> simp [Kernel.set, hn]

/-- A sender run that returns 0 opened the queue `q0` (found or just created),
passed every check of the send, and left `q0` with the one new message. -/
theorem sender_exit_zero (d : Declarations) (env : Env) (k : Kernel) (stdin : List Byte)
    (h : (Sender.main d env k stdin).outcome = .exit 0) :
    ∃ q0 n k1,
      mq_open env k d.QUEUE_NAME { creat := true, access := .wronly } 0o644
        (some (Sender.attr d)) = .ok ({ name := d.QUEUE_NAME, access := .wronly }, k1) ∧
      k1.queues d.QUEUE_NAME = some q0 ∧
      (k.queues d.QUEUE_NAME = some q0 ∨
        (k.queues d.QUEUE_NAME = none ∧ q0 = MQ.fresh 0o644 10 d.MSG_SIZE)) ∧
      strlen (Sender.message d env stdin) = some n ∧
      n + 1 ≤ q0.msgsize ∧ q0.msgs.length < q0.maxmsg ∧
      (Sender.main d env k stdin).kernel = k.set d.QUEUE_NAME (some
        { q0 with
          msgs := enqueue
            { payload := (Sender.message d env stdin).take (n + 1), prio := d.PRIORITY,
              seq := q0.clock } q0.msgs,
          clock := q0.clock + 1 }) ∧
      (Sender.main d env k stdin).calls =
        [("mq_open", none), ("mq_send", none), ("mq_close", none)] := by
  rcases sender_paths d env k stdin with ⟨e, -, hm⟩ | ⟨k1, ho, hrest⟩
  · simp [hm] at h
  · rcases hrest with ⟨-, hm⟩ | ⟨n, hn, ⟨e, -, hm⟩ | ⟨-, hm⟩ | ⟨k2, hs, hm⟩⟩
    · simp [hm] at h
    · simp [hm] at h
    · simp [hm] at h
    · obtain ⟨q0, hq0, -, -, hl, -, hc, hk2⟩ := mq_send_ok _ _ _ _ _ _ _ hs
      simp only at hq0 hk2
      obtain ⟨-, -, hk⟩ := mq_open_ok _ _ _ _ _ _ _ _ ho
      refine ⟨q0, n, k1, ho, hq0, ?_, hn, hl, hc, ?_, by rw [hm]⟩
      · rcases hk with ⟨q, hq, rfl⟩ | ⟨hnone, -, ⟨ha, -⟩ | ⟨a, ha, -, rfl⟩⟩
        · left
          exact hq0
        · simp at ha
        · right
          simp only [Option.some.injEq] at ha
          subst ha
          simp only [Kernel.set_same, Option.some.injEq] at hq0
          exact ⟨hnone, by rw [← hq0]; rfl⟩
      · rw [hm]
        simp only
        rcases hk with ⟨q, hq, rfl⟩ | ⟨hnone, -, ⟨ha, -⟩ | ⟨a, ha, -, rfl⟩⟩
        · exact hk2
        · simp at ha
        · rw [hk2, Kernel.set_set]

/-- When the named queue exists and nothing faults, the sender enqueues if a
slot is free and suspends, leaving the queue as it was, if none is. -/
theorem sender_on_existing (d : Declarations) (env : Env) (k : Kernel) (stdin : List Byte)
    (q : MQ) (n : Nat) (hq : k.queues d.QUEUE_NAME = some q) (hf : env.open_fault = none)
    (hn : strlen (Sender.message d env stdin) = some n) (hp : d.PRIORITY < env.prio_max)
    (hl : n + 1 ≤ q.msgsize) (hs : env.send_fault = none) :
    (q.maxmsg ≤ q.msgs.length →
      (Sender.main d env k stdin).outcome = .blocked ∧ (Sender.main d env k stdin).kernel = k) ∧
    (q.msgs.length < q.maxmsg →
      (Sender.main d env k stdin).outcome = .exit 0 ∧
      (Sender.main d env k stdin).kernel = k.set d.QUEUE_NAME (some
        { q with
          msgs := enqueue
            { payload := (Sender.message d env stdin).take (n + 1), prio := d.PRIORITY,
              seq := q.clock } q.msgs,
          clock := q.clock + 1 })) := by
  have ho := mq_open_existing env k d.QUEUE_NAME { creat := true, access := .wronly } 0o644
    (some (Sender.attr d)) q hf hq
  have hsend := mq_send_eq env k { name := d.QUEUE_NAME, access := .wronly }
    (Sender.message d env stdin) (n + 1) d.PRIORITY q hq hp (by simp) hl hs
  constructor
  · intro hfull
    rw [if_pos hfull] at hsend
    simp [Sender.main, ho, hn, hsend]
  · intro hfree
    rw [if_neg (by omega)] at hsend
    simp [Sender.main, ho, hn, hsend]

/-- A receiver run that returns 0 found the named queue with a first message
`m`, printed the C string at the start of its buffer, and called `mq_unlink`
on the namespace in which `m` has left the queue. -/
theorem receiver_exit_zero (d : Declarations) (env : Env) (k : Kernel)
    (h : (Receiver.main d env k).outcome = .exit 0) :
    ∃ q m rest, k.queues d.QUEUE_NAME = some q ∧ q.msgs = m :: rest ∧
      mq_receive env k { name := d.QUEUE_NAME, access := .rdonly } q.msgsize =
        .ok (m, k.set d.QUEUE_NAME (some { q with msgs := rest })) ∧
      (Receiver.main d env k).stdout =
        bytes "Received message: " ++ upToNul (Receiver.buffer env q.msgsize m) ∧
      (Receiver.main d env k).kernel =
        Receiver.unlinked d env (k.set d.QUEUE_NAME (some { q with msgs := rest })) ∧
      (Receiver.main d env k).stderr = [] ∧
      (Receiver.main d env k).calls =
        [("mq_open", none), ("mq_getattr", none), ("mq_receive", none), ("mq_close", none),
          ("mq_unlink", failure (mq_unlink env
            (k.set d.QUEUE_NAME (some { q with msgs := rest })) d.QUEUE_NAME))] ∧
      strlen (Receiver.buffer env q.msgsize m) ≠ none ∧
      env.open_fault = none ∧ env.malloc_fails = false ∧ env.receive_fault = none := by
  rcases receiver_paths d env k with ⟨e, -, hm⟩ | ⟨k1, q, ho, hq, hrest⟩
  · simp [hm] at h
  · rcases hrest with ⟨-, hm⟩ | ⟨hmal, ⟨e, -, hm⟩ | ⟨-, hm⟩ | ⟨m, k2, hr, ⟨-, hm⟩ | ⟨hs, hm⟩⟩⟩
    · simp [hm] at h
    · simp [hm] at h
    · simp [hm] at h
    · simp [hm] at h
    · obtain ⟨q1, rest, hq1, hmsgs, -, -, hrf, hk2⟩ := mq_receive_ok _ _ _ _ _ _ hr
      simp only at hq1 hk2
      rw [hq] at hq1
      simp only [Option.some.injEq] at hq1
      subst hq1
      obtain ⟨-, hof, hk⟩ := mq_open_ok _ _ _ _ _ _ _ _ ho
      have hk1 : k1 = k := by
        rcases hk with ⟨q2, -, rfl⟩ | ⟨-, -, ⟨-, rfl⟩ | ⟨a, ha, -⟩⟩
        · rfl
        · simp only [Kernel.set_same, Option.some.injEq] at hq
          subst hq
          simp [MQ.fresh] at hmsgs
        · simp at ha
      subst hk1
      subst hk2
      exact ⟨q, m, rest, hq, hmsgs, hr, by rw [hm], by rw [hm], by rw [hm], by rw [hm], hs,
        hof, hmal, hrf⟩

/-- When the named queue exists and neither the open, the allocation nor the
receive faults, the receiver suspends on an empty queue and otherwise takes
the first message; it returns 0 when its buffer then holds a C string. -/
theorem receiver_on_existing (d : Declarations) (env : Env) (k : Kernel) (q : MQ)
    (hq : k.queues d.QUEUE_NAME = some q) (hf : env.open_fault = none)
    (hm : env.malloc_fails = false) (hr : env.receive_fault = none) :
    (q.msgs = [] →
      (Receiver.main d env k).outcome = .blocked ∧ (Receiver.main d env k).kernel = k ∧
      (Receiver.main d env k).stdout = []) ∧
    (∀ m rest, q.msgs = m :: rest →
      strlen (Receiver.buffer env q.msgsize m) ≠ none →
      (Receiver.main d env k).outcome = .exit 0) := by
  have ho := mq_open_existing env k d.QUEUE_NAME { creat := true, access := .rdonly } 0o644
    none q hf hq
  have hattr : (Receiver.attr env k { name := d.QUEUE_NAME, access := .rdonly }).mq_msgsize
      = q.msgsize := by
    simp [Receiver.attr, mq_getattr, hq]
  have hrecv := mq_receive_eq env k { name := d.QUEUE_NAME, access := .rdonly } q.msgsize q hq
    (by simp) (le_refl _) hr
  constructor
  · intro he
    rw [he] at hrecv
    simp [Receiver.main, ho, hm, hattr, hrecv]
  · intro m rest he hs
    rw [he] at hrecv
    cases hn : strlen (Receiver.buffer env q.msgsize m) with
    | none => exact absurd hn hs
    | some n => simp [Receiver.main, ho, hm, hattr, hrecv, hn]

/-! ## Delivery order -/

theorem mem_enqueue (m x : Message) (l : List Message) :
    x ∈ enqueue m l ↔ x = m ∨ x ∈ l := by
  induction l with
  | nil => simp [enqueue]
  | cons y ys ih =>
    unfold enqueue
    split
    · simp
    · simp only [List.mem_cons, ih]
      tauto

theorem length_enqueue (m : Message) (l : List Message) :
    (enqueue m l).length = l.length + 1 := by
  induction l with
  | nil => simp [enqueue]
  | cons y ys ih =>
    unfold enqueue
    split
    · simp
    · simp [ih]

theorem sublist_enqueue (m : Message) (l : List Message) : l.Sublist (enqueue m l) := by
  induction l with
  | nil => simp
  | cons y ys ih =>
    unfold enqueue
    split
    · exact List.sublist_cons_self _ _
    · exact ih.cons₂ y

theorem enqueue_pairwise (m : Message) (l : List Message)
    (hl : l.Pairwise Message.before) (hseq : ∀ x ∈ l, x.seq < m.seq) :
    (enqueue m l).Pairwise Message.before := by
  induction l with
  | nil => simp [enqueue]
  | cons y ys ih =>
    rw [List.pairwise_cons] at hl
    unfold enqueue
    split
    · rename_i hlt
      rw [List.pairwise_cons]
      refine ⟨?_, List.pairwise_cons.mpr hl⟩
      intro x hx
      rcases List.mem_cons.mp hx with rfl | hx
      · exact Or.inl hlt
      · rcases hl.1 x hx with h | ⟨h, -⟩
        · exact Or.inl (by omega)
        · exact Or.inl (by omega)
    · rename_i hge
      rw [List.pairwise_cons]
      refine ⟨?_, ih hl.2 (fun x hx => hseq x (List.mem_cons_of_mem _ hx))⟩
      intro x hx
      rcases (mem_enqueue m x ys).mp hx with rfl | hx
      · have := hseq y (List.mem_cons_self _ _)
        unfold Message.before
        omega
      · exact hl.1 x hx

theorem wf_fresh (mode maxmsg msgsize : Nat) : (MQ.fresh mode maxmsg msgsize).wf := by
  simp [MQ.wf, MQ.fresh]

/-- Every queue of a namespace the queue calls produce keeps its messages in
delivery order. -/
theorem reachable_wf (k : Kernel) (h : Reachable k) :
    ∀ name q, k.queues name = some q → q.wf := by
  induction h with
  | boot =>
    intro name q hq
    simp [Kernel.empty] at hq
  | opened env k name oflag mode attr mqd k1 _ ho ih =>
    intro n q hq
    obtain ⟨-, -, hk⟩ := mq_open_ok _ _ _ _ _ _ _ _ ho
    have hcase : k1 = k ∨ ∃ a b, k1 = k.set name (some (MQ.fresh mode a b)) := by
      rcases hk with ⟨-, -, rfl⟩ | ⟨-, -, ⟨-, rfl⟩ | ⟨a, -, -, rfl⟩⟩
      · exact Or.inl rfl
      · exact Or.inr ⟨_, _, rfl⟩
      · exact Or.inr ⟨_, _, rfl⟩
    rcases hcase with rfl | ⟨a, b, rfl⟩
    · exact ih n q hq
    · by_cases hn : n = name
      · subst hn
        simp only [Kernel.set_same, Option.some.injEq] at hq
        subst hq
        exact wf_fresh _ _ _
      · rw [Kernel.set_other _ _ _ _ hn] at hq
        exact ih n q hq
  | sent env k mqd p len prio k1 _ hs ih =>
    intro n q hq
    obtain ⟨q0, hq0, -, -, -, -, -, rfl⟩ := mq_send_ok _ _ _ _ _ _ _ hs
    by_cases hn : n = mqd.name
    · subst hn
      simp only [Kernel.set_same, Option.some.injEq] at hq
      subst hq
      obtain ⟨hp, hc⟩ := ih _ q0 hq0
      refine ⟨enqueue_pairwise _ _ hp hc, ?_⟩
      intro x hx
      simp only at hx ⊢
      rcases (mem_enqueue _ x _).mp hx with rfl | hx
      · simp
      · have := hc x hx
        omega
    · rw [Kernel.set_other _ _ _ _ hn] at hq
      exact ih n q hq
  | received env k mqd len m k1 _ hr ih =>
    intro n q hq
    obtain ⟨q0, rest, hq0, hm, -, -, -, rfl⟩ := mq_receive_ok _ _ _ _ _ _ hr
    by_cases hn : n = mqd.name
    · subst hn
      simp only [Kernel.set_same, Option.some.injEq] at hq
      subst hq
      obtain ⟨hp, hc⟩ := ih _ q0 hq0
      rw [hm] at hp hc
      exact ⟨(List.pairwise_cons.mp hp).2, fun x hx => hc x (List.mem_cons_of_mem _ hx)⟩
    · rw [Kernel.set_other _ _ _ _ hn] at hq
      exact ih n q hq
  | unlinked env k name k1 _ hu ih =>
    intro n q hq
    have hk1 : k1 = k.set name none := by
      unfold mq_unlink at hu
      cases hq0 : k.queues name with
      | none => simp [hq0] at hu
      | some q0 =>
        cases hf : env.unlink_fault with
        | some f => simp [hq0, hf] at hu
        | none =>
          simp only [hq0, hf, Except.ok.injEq] at hu
          exact hu.symm
    subst hk1
    by_cases hn : n = name
    · subst hn
      simp at hq
    · rw [Kernel.set_other _ _ _ _ hn] at hq
      exact ih n q hq

/-! ## What a run does to the namespace -/

theorem message_length_le (d : Declarations) (env : Env) (stdin : List Byte) :
    (Sender.message d env stdin).length ≤ d.MSG_SIZE := by
  cases hL : inputLine d.MSG_SIZE stdin with
  | none => simp [Sender.message, fgets, hL]
  | some L =>
    have h1 := (inputLine_some _ _ _ hL).2
    rw [message_of_line d env stdin L hL]
    simp only [List.length_append, List.length_cons, List.length_drop, List.length_take]
    omega

/-- The namespace after a sender run: unchanged; or the named queue, absent
before, now exists and is empty (the run did not return 0); or the run
returned 0 and the opened queue holds one message more. -/
theorem sender_kernel_cases (d : Declarations) (env : Env) (k : Kernel) (stdin : List Byte) :
    ((Sender.main d env k stdin).kernel = k ∧ (Sender.main d env k stdin).outcome ≠ .exit 0) ∨
    (k.queues d.QUEUE_NAME = none ∧
      (Sender.main d env k stdin).kernel =
        k.set d.QUEUE_NAME (some (MQ.fresh 0o644 10 d.MSG_SIZE)) ∧
      (Sender.main d env k stdin).outcome ≠ .exit 0) ∨
    ((Sender.main d env k stdin).outcome = .exit 0 ∧
      ∃ q0 m, (k.queues d.QUEUE_NAME = some q0 ∨
          (k.queues d.QUEUE_NAME = none ∧ q0 = MQ.fresh 0o644 10 d.MSG_SIZE)) ∧
        q0.msgs.length < q0.maxmsg ∧ m.payload.length ≤ q0.msgsize ∧
        (Sender.main d env k stdin).kernel = k.set d.QUEUE_NAME (some
          { q0 with msgs := enqueue m q0.msgs, clock := q0.clock + 1 })) := by
  rcases sender_paths d env k stdin with ⟨e, -, hm⟩ | ⟨k1, ho, hrest⟩
  · left
    rw [hm]
    simp
  · obtain ⟨-, -, hk⟩ := mq_open_ok _ _ _ _ _ _ _ _ ho
    have hk1 : k1 = k ∨ (k.queues d.QUEUE_NAME = none ∧
        k1 = k.set d.QUEUE_NAME (some (MQ.fresh 0o644 10 d.MSG_SIZE))) := by
      rcases hk with ⟨q, hq, rfl⟩ | ⟨hnone, -, ⟨ha, -⟩ | ⟨a, ha, -, rfl⟩⟩
      · exact Or.inl rfl
      · simp at ha
      · simp only [Option.some.injEq] at ha
        subst ha
        exact Or.inr ⟨hnone, rfl⟩
    have hstay : ∀ r : Run, Sender.main d env k stdin = r → r.kernel = k1 →
        r.outcome ≠ .exit 0 →
        ((Sender.main d env k stdin).kernel = k ∧
          (Sender.main d env k stdin).outcome ≠ .exit 0) ∨
        (k.queues d.QUEUE_NAME = none ∧
          (Sender.main d env k stdin).kernel =
            k.set d.QUEUE_NAME (some (MQ.fresh 0o644 10 d.MSG_SIZE)) ∧
          (Sender.main d env k stdin).outcome ≠ .exit 0) := by
      intro r hr hrk hro
      subst hr
      rcases hk1 with rfl | ⟨hnone, rfl⟩
      · exact Or.inl ⟨hrk, hro⟩
      · exact Or.inr ⟨hnone, hrk, hro⟩
    rcases hrest with ⟨-, hm⟩ | ⟨n, hn, ⟨e, -, hm⟩ | ⟨-, hm⟩ | ⟨k2, hs, hm⟩⟩
    · rcases hstay _ hm rfl (by simp) with h | h
      · exact Or.inl h
      · exact Or.inr (Or.inl h)
    · rcases hstay _ hm rfl (by simp) with h | h
      · exact Or.inl h
      · exact Or.inr (Or.inl h)
    · rcases hstay _ hm rfl (by simp) with h | h
      · exact Or.inl h
      · exact Or.inr (Or.inl h)
    · right
      right
      have hz : (Sender.main d env k stdin).outcome = .exit 0 := by rw [hm]
      obtain ⟨q0, n1, -, -, -, hq0, hn1, hl, hc, hkk, -⟩ := sender_exit_zero d env k stdin hz
      refine ⟨hz, q0,
        (⟨(Sender.message d env stdin).take (n1 + 1), d.PRIORITY, q0.clock⟩ : Message),
        hq0, hc, ?_, hkk⟩
      simp only [List.length_take]
      omega

/-- The namespace after a receiver run: unchanged; or the named queue, absent
before, now exists and is empty (the run did not return 0); or the first
message has left the named queue and the queue is still there; or the first
message was received and the name is gone. -/
theorem receiver_kernel_cases (d : Declarations) (env : Env) (k : Kernel) :
    ((Receiver.main d env k).kernel = k ∧ (Receiver.main d env k).outcome ≠ .exit 0) ∨
    (k.queues d.QUEUE_NAME = none ∧
      (Receiver.main d env k).kernel =
        k.set d.QUEUE_NAME (some (MQ.fresh 0o644 env.msg_default env.msgsize_default)) ∧
      (Receiver.main d env k).outcome ≠ .exit 0) ∨
    (∃ q m rest, k.queues d.QUEUE_NAME = some q ∧ q.msgs = m :: rest ∧
      ((Receiver.main d env k).outcome = .exit 0 ∨
        (Receiver.main d env k).outcome = .undefined) ∧
      ((Receiver.main d env k).kernel = k.set d.QUEUE_NAME (some { q with msgs := rest }) ∨
        ((Receiver.main d env k).outcome = .exit 0 ∧ env.unlink_fault = none ∧
          (Receiver.main d env k).kernel = k.set d.QUEUE_NAME none))) := by
  rcases receiver_paths d env k with ⟨e, -, hm⟩ | ⟨k1, q, ho, hq, hrest⟩
  · left
    rw [hm]
    simp
  · obtain ⟨-, -, hk⟩ := mq_open_ok _ _ _ _ _ _ _ _ ho
    have hk1 : k1 = k ∨ (k.queues d.QUEUE_NAME = none ∧
        k1 = k.set d.QUEUE_NAME (some (MQ.fresh 0o644 env.msg_default env.msgsize_default))) := by
      rcases hk with ⟨q, hq, rfl⟩ | ⟨hnone, -, ⟨-, rfl⟩ | ⟨a, ha, -⟩⟩
      · exact Or.inl rfl
      · exact Or.inr ⟨hnone, rfl⟩
      · simp at ha
    have hstay : ∀ r : Run, Receiver.main d env k = r → r.kernel = k1 →
        r.outcome ≠ .exit 0 →
        ((Receiver.main d env k).kernel = k ∧ (Receiver.main d env k).outcome ≠ .exit 0) ∨
        (k.queues d.QUEUE_NAME = none ∧
          (Receiver.main d env k).kernel =
            k.set d.QUEUE_NAME (some (MQ.fresh 0o644 env.msg_default env.msgsize_default)) ∧
          (Receiver.main d env k).outcome ≠ .exit 0) := by
      intro r hr hrk hro
      subst hr
      rcases hk1 with rfl | ⟨hnone, rfl⟩
      · exact Or.inl ⟨hrk, hro⟩
      · exact Or.inr ⟨hnone, hrk, hro⟩
    rcases hrest with ⟨-, hm⟩ | ⟨-, ⟨e, -, hm⟩ | ⟨-, hm⟩ | ⟨m, k2, hr, hlast⟩⟩
    · rcases hstay _ hm rfl (by simp) with h | h
      · exact Or.inl h
      · exact Or.inr (Or.inl h)
    · rcases hstay _ hm rfl (by simp) with h | h
      · exact Or.inl h
      · exact Or.inr (Or.inl h)
    · rcases hstay _ hm rfl (by simp) with h | h
      · exact Or.inl h
      · exact Or.inr (Or.inl h)
    · right
      right
      obtain ⟨q1, rest, hq1, hmsgs, -, -, -, hk2⟩ := mq_receive_ok _ _ _ _ _ _ hr
      simp only at hq1 hk2
      have hkk : k1 = k := by
        rcases hk1 with rfl | ⟨-, rfl⟩
        · rfl
        · simp only [Kernel.set_same, Option.some.injEq] at hq1
          subst hq1
          simp [MQ.fresh] at hmsgs
      subst hkk
      subst hk2
      refine ⟨q1, m, rest, hq1, hmsgs, ?_⟩
      rcases hlast with ⟨-, hm⟩ | ⟨-, hm⟩
      · exact ⟨Or.inr (by rw [hm]), Or.inl (by rw [hm])⟩
      · refine ⟨Or.inl (by rw [hm]), ?_⟩
        cases hf : env.unlink_fault with
        | some f =>
          left
          rw [hm]
          simp [Receiver.unlinked, mq_unlink, hf]
        | none =>
          right
          refine ⟨by rw [hm], rfl, ?_⟩
          rw [hm]
          simp [Receiver.unlinked, mq_unlink, hf, Kernel.set_set]

/-- A sender run that suspends found the opened queue full. -/
theorem sender_blocked_full (d : Declarations) (env : Env) (k : Kernel) (stdin : List Byte)
    (q : MQ) (hq : k.queues d.QUEUE_NAME = some q)
    (h : (Sender.main d env k stdin).outcome = .blocked) : q.maxmsg ≤ q.msgs.length := by
  rcases sender_paths d env k stdin with ⟨e, -, hm⟩ | ⟨k1, ho, hrest⟩
  · simp [hm] at h
  · obtain ⟨-, -, hk⟩ := mq_open_ok _ _ _ _ _ _ _ _ ho
    have hk1 : k1 = k := by
      rcases hk with ⟨q1, -, rfl⟩ | ⟨hnone, -⟩
      · rfl
      · rw [hq] at hnone
        simp at hnone
    subst hk1
    rcases hrest with ⟨-, hm⟩ | ⟨n, hn, ⟨e, -, hm⟩ | ⟨hb, hm⟩ | ⟨k2, hs, hm⟩⟩
    · simp [hm] at h
    · simp [hm] at h
    · obtain ⟨q1, hq1, hfull⟩ := mq_send_blocked _ _ _ _ _ _ hb
      simp only at hq1
      rw [hq] at hq1
      simp only [Option.some.injEq] at hq1
      subst hq1
      exact hfull
    · simp [hm] at h

/-- The queue a sender run created keeps capacity 10 and maximum message size
`MSG_SIZE`, and never holds more than 10 messages. -/
theorem senderQueue_inv (d : Declarations) (k : Kernel) (h : SenderQueue d k) :
    ∃ q, k.queues d.QUEUE_NAME = some q ∧ q.maxmsg = 10 ∧ q.msgsize = d.MSG_SIZE ∧
      q.msgs.length ≤ 10 := by
  induction h with
  | created env stdin k hnone hsome =>
    rcases sender_kernel_cases d env k stdin with ⟨hk, -⟩ | ⟨-, hk, -⟩ | ⟨-, q0, m, hq0, hc, -, hk⟩
    · rw [hk, hnone] at hsome
      simp at hsome
    · exact ⟨_, by rw [hk, Kernel.set_same], rfl, rfl, by simp [MQ.fresh]⟩
    · rcases hq0 with hq | ⟨-, rfl⟩
      · rw [hq] at hnone
        simp at hnone
      · exact ⟨_, by rw [hk, Kernel.set_same], rfl, rfl, by simp [MQ.fresh, enqueue]⟩
  | sender env stdin k _ ih =>
    obtain ⟨q, hq, h1, h2, h3⟩ := ih
    rcases sender_kernel_cases d env k stdin with ⟨hk, -⟩ | ⟨hnone, -⟩ | ⟨-, q0, m, hq0, hc, -, hk⟩
    · exact ⟨q, by rw [hk, hq], h1, h2, h3⟩
    · rw [hq] at hnone
      simp at hnone
    · rcases hq0 with hq0 | ⟨hnone, -⟩
      · rw [hq] at hq0
        simp only [Option.some.injEq] at hq0
        subst hq0
        refine ⟨_, by rw [hk, Kernel.set_same], ?_, ?_, ?_⟩
        · exact h1
        · exact h2
        · simp only [length_enqueue]
          omega
      · rw [hq] at hnone
        simp at hnone
  | receiver env k _ hsome ih =>
    obtain ⟨q, hq, h1, h2, h3⟩ := ih
    rcases receiver_kernel_cases d env k with
      ⟨hk, -⟩ | ⟨hnone, -⟩ | ⟨q1, m, rest, hq1, hmsgs, -, hk | ⟨-, -, hk⟩⟩
    · exact ⟨q, by rw [hk, hq], h1, h2, h3⟩
    · rw [hq] at hnone
      simp at hnone
    · rw [hq] at hq1
      simp only [Option.some.injEq] at hq1
      subst hq1
      refine ⟨_, by rw [hk, Kernel.set_same], ?_, ?_, ?_⟩
      · exact h1
      · exact h2
      · rw [hmsgs] at h3
        simp only [List.length_cons] at h3
        simp only
        omega
    · rw [hk] at hsome
      simp at hsome

/-- Across unlinks and new creations the named queue never holds more
messages than its capacity. -/
theorem toolReach_inv (d : Declarations) (k : Kernel) (h : ToolReach d k) :
    ∀ q, k.queues d.QUEUE_NAME = some q → q.msgs.length ≤ q.maxmsg := by
  induction h with
  | start k hk =>
    intro q hq
    obtain ⟨q1, hq1, h1, -, h3⟩ := senderQueue_inv d k hk
    rw [hq] at hq1
    simp only [Option.some.injEq] at hq1
    subst hq1
    omega
  | sender env stdin k _ ih =>
    intro q hq
    rcases sender_kernel_cases d env k stdin with
      ⟨hk, -⟩ | ⟨-, hk, -⟩ | ⟨-, q0, m, hq0, hc, -, hk⟩
    · rw [hk] at hq
      exact ih q hq
    · rw [hk, Kernel.set_same] at hq
      simp only [Option.some.injEq] at hq
      subst hq
      simp [MQ.fresh]
    · rw [hk, Kernel.set_same] at hq
      simp only [Option.some.injEq] at hq
      subst hq
      simp only [length_enqueue]
      omega
  | receiver env k _ ih =>
    intro q hq
    rcases receiver_kernel_cases d env k with
      ⟨hk, -⟩ | ⟨-, hk, -⟩ | ⟨q1, m, rest, hq1, hmsgs, -, hk | ⟨-, -, hk⟩⟩
    · rw [hk] at hq
      exact ih q hq
    · rw [hk, Kernel.set_same] at hq
      simp only [Option.some.injEq] at hq
      subst hq
      simp [MQ.fresh]
    · rw [hk, Kernel.set_same] at hq
      simp only [Option.some.injEq] at hq
      subst hq
      have := ih q1 hq1
      rw [hmsgs] at this
      simp only [List.length_cons] at this
      simp only
      omega
    · rw [hk, Kernel.set_same] at hq
      simp at hq

theorem refill_toolReach (n : Nat) : ToolReach sampleDecl (refill n) := by
  induction n with
  | zero =>
    exact ToolReach.receiver bigHost _ (ToolReach.receiver quietEnv _
      (ToolReach.start _ (SenderQueue.created quietEnv sampleLine Kernel.empty
        (by decide) (by decide))))
  | succ n ih => exact ToolReach.sender quietEnv sampleLine (refill n) ih

/-- A send the sender reports as rejected with `EMSGSIZE` was made on a queue
that existed before the run, whose maximum message size is below the length
passed; the namespace is unchanged. -/
theorem sender_emsgsize (d : Declarations) (env : Env) (k : Kernel) (stdin : List Byte)
    (h : ("mq_send", Errno.EMSGSIZE) ∈ (Sender.main d env k stdin).stderr) :
    ∃ q n, k.queues d.QUEUE_NAME = some q ∧ strlen (Sender.message d env stdin) = some n ∧
      q.msgsize < n + 1 ∧ (Sender.main d env k stdin).kernel = k := by
  rcases sender_paths d env k stdin with ⟨e, -, hm⟩ | ⟨k1, ho, hrest⟩
  · simp [hm] at h
  · rcases hrest with ⟨-, hm⟩ | ⟨n, hn, ⟨e, hs, hm⟩ | ⟨-, hm⟩ | ⟨k2, -, hm⟩⟩
    · simp [hm] at h
    · rw [hm] at h
      simp only [List.mem_singleton, Prod.mk.injEq, true_and] at h
      subst h
      obtain ⟨q, hq, hlt⟩ := mq_send_emsgsize _ _ _ _ _ _ hs
      simp only at hq
      obtain ⟨-, -, hk⟩ := mq_open_ok _ _ _ _ _ _ _ _ ho
      rcases hk with ⟨q1, -, rfl⟩ | ⟨-, -, ⟨ha, -⟩ | ⟨a, ha, -, rfl⟩⟩
      · exact ⟨q, n, hq, hn, hlt, by rw [hm]⟩
      · simp at ha
      · simp only [Option.some.injEq] at ha
        subst ha
        simp only [Kernel.set_same, Option.some.injEq] at hq
        subst hq
        have h1 := (strlen_spec _ _ hn).2.2
        have h2 := message_length_le d env stdin
        simp only [MQ.fresh, Sender.attr] at hlt
        omega
    · simp [hm] at h
    · simp [hm] at h

/-- A receiver run that does not return 0 has printed nothing. -/
theorem receiver_stdout_nil (d : Declarations) (env : Env) (k : Kernel)
    (h : (Receiver.main d env k).outcome ≠ .exit 0) : (Receiver.main d env k).stdout = [] := by
  rcases receiver_paths d env k with ⟨e, -, hm⟩ | ⟨k1, q, -, -, hrest⟩
  · rw [hm]
  · rcases hrest with ⟨-, hm⟩ | ⟨-, ⟨e, -, hm⟩ | ⟨-, hm⟩ | ⟨m, k2, -, ⟨-, hm⟩ | ⟨-, hm⟩⟩⟩
    · rw [hm]
    · rw [hm]
    · rw [hm]
    · rw [hm]
    · rw [hm] at h
      simp at h

/-- When the named queue does not exist and neither the open, the allocation
nor the receive faults, the receiver creates it with the defaults of the host
and suspends. -/
theorem receiver_on_missing (d : Declarations) (env : Env) (k : Kernel)
    (hq : k.queues d.QUEUE_NAME = none) (hf : env.open_fault = none)
    (hm : env.malloc_fails = false) (hr : env.receive_fault = none) :
    (Receiver.main d env k).outcome = .blocked ∧
    (Receiver.main d env k).kernel =
      k.set d.QUEUE_NAME (some (MQ.fresh 0o644 env.msg_default env.msgsize_default)) ∧
    (Receiver.main d env k).stderr = [] := by
  simp [Receiver.main, mq_open, mq_receive, Receiver.attr, mq_getattr, MQ.fresh, hq, hf, hm, hr]

/-- The errors a receiver run reports never include `ENOENT`. -/
theorem receiver_stderr_not_enoent (d : Declarations) (env : Env) (k : Kernel) :
    ∀ e ∈ (Receiver.main d env k).stderr, e.2 ≠ .ENOENT := by
  intro e he
  rcases receiver_paths d env k with ⟨e1, ho, hm⟩ | ⟨k1, q, -, -, hrest⟩
  · rw [hm] at he
    simp only [List.mem_singleton] at he
    subst he
    simp only
    rcases mq_open_error _ _ _ _ _ _ _ ho with ⟨f, -, rfl⟩ | ⟨-, -, ⟨hc, -⟩ | ⟨-, rfl, -⟩⟩
    · cases f <;> decide
    · simp at hc
    · decide
  · rcases hrest with ⟨-, hm⟩ | ⟨-, ⟨e1, hr, hm⟩ | ⟨-, hm⟩ | ⟨m, k2, -, ⟨-, hm⟩ | ⟨-, hm⟩⟩⟩
    · rw [hm] at he
      simp only [List.mem_singleton] at he
      subst he
      decide
    · rw [hm] at he
      simp only [List.mem_singleton] at he
      subst he
      exact mq_receive_error _ _ _ _ _ hr
    · simp [hm] at he
    · simp [hm] at he
    · simp [hm] at he

/-- The runs of the sender keep the namespace among those the queue calls
produce. -/
theorem sender_reachable (d : Declarations) (env : Env) (k : Kernel) (stdin : List Byte)
    (h : Reachable k) : Reachable (Sender.main d env k stdin).kernel := by
  rcases sender_paths d env k stdin with ⟨e, -, hm⟩ | ⟨k1, ho, hrest⟩
  · rw [hm]
    exact h
  · have h1 : Reachable k1 := Reachable.opened _ _ _ _ _ _ _ _ h ho
    rcases hrest with ⟨-, hm⟩ | ⟨n, hn, ⟨e, -, hm⟩ | ⟨-, hm⟩ | ⟨k2, hs, hm⟩⟩
    · rw [hm]
      exact h1
    · rw [hm]
      exact h1
    · rw [hm]
      exact h1
    · rw [hm]
      exact Reachable.sent _ _ _ _ _ _ _ h1 hs

/-- The runs of the receiver keep the namespace among those the queue calls
produce. -/
theorem receiver_reachable (d : Declarations) (env : Env) (k : Kernel)
    (h : Reachable k) : Reachable (Receiver.main d env k).kernel := by
  rcases receiver_paths d env k with ⟨e, -, hm⟩ | ⟨k1, q, ho, -, hrest⟩
  · rw [hm]
    exact h
  · have h1 : Reachable k1 := Reachable.opened _ _ _ _ _ _ _ _ h ho
    rcases hrest with ⟨-, hm⟩ | ⟨-, ⟨e, -, hm⟩ | ⟨-, hm⟩ | ⟨m, k2, hr, ⟨-, hm⟩ | ⟨-, hm⟩⟩⟩
    · rw [hm]
      exact h1
    · rw [hm]
      exact h1
    · rw [hm]
      exact h1
    · rw [hm]
      exact Reachable.received _ _ _ _ _ _ h1 hr
    · rw [hm]
      have h2 : Reachable k2 := Reachable.received _ _ _ _ _ _ h1 hr
      simp only [Receiver.unlinked]
      cases hu : mq_unlink env k2 d.QUEUE_NAME with
      | error e => exact h2
      | ok k3 => exact Reachable.unlinked _ _ _ _ h2 hu

theorem sendTimes_senderQueue (n : Nat) : SenderQueue sampleDecl (sendTimes n) := by
  induction n with
  | zero => exact SenderQueue.created quietEnv sampleLine Kernel.empty (by decide) (by decide)
  | succ n ih => exact SenderQueue.sender quietEnv sampleLine (sendTimes n) ih

/-! ## The claims -/

/-- C1: round trip through the two tools.  For every line `L` that `fgets`
stores and that holds no NUL byte, when the sender returns 0 against a named
queue that holds no message (absent or empty), the queue then holds exactly
one message, with payload `L` followed by NUL; that payload is what the
receiver's `mq_receive` call obtains, a receiver run that returns 0 prints
`L` after "Received message: ", and the receiver does return 0 when its open,
its allocation and its receive do not fault. -/
theorem round_trip_sender_receiver (d : Declarations) (envS envR : Env) (k : Kernel)
    (stdin L : List Byte)
    (hline : inputLine d.MSG_SIZE stdin = some L) (hnul : 0 ∉ L)
    (hempty : ∀ q, k.queues d.QUEUE_NAME = some q → q.msgs = [])
    (hsend : (Sender.main d envS k stdin).outcome = .exit 0) :
    ∃ q m, (Sender.main d envS k stdin).kernel.queues d.QUEUE_NAME = some q ∧
      q.msgs = [m] ∧ m.payload = L ++ [0] ∧
      (∀ m1 k2, mq_receive envR (Sender.main d envS k stdin).kernel
          { name := d.QUEUE_NAME, access := .rdonly } q.msgsize = .ok (m1, k2) → m1 = m) ∧
      ((Receiver.main d envR (Sender.main d envS k stdin).kernel).outcome = .exit 0 →
        (Receiver.main d envR (Sender.main d envS k stdin).kernel).stdout =
          bytes "Received message: " ++ L) ∧
      (envR.open_fault = none → envR.malloc_fails = false → envR.receive_fault = none →
        mq_receive envR (Sender.main d envS k stdin).kernel
          { name := d.QUEUE_NAME, access := .rdonly } q.msgsize =
            .ok (m, (Sender.main d envS k stdin).kernel.set d.QUEUE_NAME
              (some { q with msgs := [] })) ∧
        (Receiver.main d envR (Sender.main d envS k stdin).kernel).outcome = .exit 0) := by
  obtain ⟨q0, n, -, -, -, hq0, hn, -, -, hk, -⟩ := sender_exit_zero d envS k stdin hsend
  have hmsgs : q0.msgs = [] := by
    rcases hq0 with hq | ⟨-, rfl⟩
    · exact hempty q0 hq
    · rfl
  have hn2 := strlen_message_of_line d envS stdin L hline
  rw [upToNul_of_not_mem L hnul] at hn2
  rw [hn] at hn2
  simp only [Option.some.injEq] at hn2
  subst hn2
  have hpay := payload_of_line d envS stdin L hline
  rw [upToNul_of_not_mem L hnul] at hpay
  rw [hpay, hmsgs] at hk
  simp only [enqueue] at hk
  have hq : (Sender.main d envS k stdin).kernel.queues d.QUEUE_NAME = some
      { q0 with
        msgs := [{ payload := L ++ [0], prio := d.PRIORITY, seq := q0.clock }],
        clock := q0.clock + 1 } := by
    rw [hk, Kernel.set_same]
  have hbuf : ∀ t : List Byte, strlen ((L ++ [0]) ++ t) = some L.length ∧
      upToNul ((L ++ [0]) ++ t) = L := by
    intro t
    have e : (L ++ [0]) ++ t = L ++ 0 :: t := by simp
    rw [e, strlen_append_nul, upToNul_append_nul, upToNul_of_not_mem L hnul]
    exact ⟨rfl, rfl⟩
  refine ⟨_, { payload := L ++ [0], prio := d.PRIORITY, seq := q0.clock }, hq, rfl, rfl,
    ?_, ?_, ?_⟩
  · intro m1 k2 hr
    obtain ⟨q1, rest, hq1, hm1, -⟩ := mq_receive_ok _ _ _ _ _ _ hr
    simp only at hq1
    rw [hq] at hq1
    simp only [Option.some.injEq] at hq1
    subst hq1
    simp only [List.cons.injEq] at hm1
    exact hm1.1.symm
  · intro hz
    obtain ⟨q1, m1, rest, hq1, hm1, -, hout, -⟩ := receiver_exit_zero d envR _ hz
    rw [hq] at hq1
    simp only [Option.some.injEq] at hq1
    subst hq1
    simp only [List.cons.injEq] at hm1
    rw [hout, ← hm1.1]
    simp only [Receiver.buffer]
    rw [(hbuf _).2]
  · intro hf hm hr
    constructor
    · rw [mq_receive_eq envR _ { name := d.QUEUE_NAME, access := .rdonly } _ _ hq (by simp)
        (le_refl _) hr]
    · refine (receiver_on_existing d envR _ _ hq hf hm hr).2 _ [] rfl ?_
      simp only [Receiver.buffer]
      rw [(hbuf _).1]
      simp

/-- C2: delivery order.  In every namespace the queue calls produce, when the
named queue holds a message, the receive call the receiver makes returns the
first stored message `m` and leaves the others in the queue; every other
stored message has a lower priority than `m`, or the same priority and a later
insertion stamp; and a receiver run that returns 0 has printed `m`.  In
particular messages sent with priorities 1, 5, 3 come out in the order
5, 3, 1, and two messages of priority 2 come out in the order sent. -/
theorem receive_highest_priority_earliest (d : Declarations) :
    (∀ (env : Env) (k : Kernel) (q : MQ), Reachable k →
      k.queues d.QUEUE_NAME = some q → q.msgs ≠ [] → env.receive_fault = none →
      ∃ m rest, q.msgs = m :: rest ∧ rest = q.msgs.erase m ∧
        mq_receive env k { name := d.QUEUE_NAME, access := .rdonly } q.msgsize =
          .ok (m, k.set d.QUEUE_NAME (some { q with msgs := rest })) ∧
        (∀ x ∈ rest, x.prio < m.prio ∨ (x.prio = m.prio ∧ m.seq < x.seq)) ∧
        ((Receiver.main d env k).outcome = .exit 0 →
          (Receiver.main d env k).stdout = bytes "Received message: " ++
            upToNul (Receiver.buffer env q.msgsize m))) ∧
    (∀ (env : Env) (a b c : List Byte), env.send_fault = none → env.receive_fault = none →
      5 < env.prio_max → a.length ≤ d.MSG_SIZE → b.length ≤ d.MSG_SIZE →
      c.length ≤ d.MSG_SIZE →
      (sendAll env { name := d.QUEUE_NAME, access := .wronly }
          (Kernel.empty.set d.QUEUE_NAME (some (MQ.fresh 0o644 10 d.MSG_SIZE)))
          [(a, 1), (b, 5), (c, 3)]).bind
        (receiveAll env { name := d.QUEUE_NAME, access := .rdonly } d.MSG_SIZE 3) =
        some [{ payload := b, prio := 5, seq := 1 }, { payload := c, prio := 3, seq := 2 },
          { payload := a, prio := 1, seq := 0 }]) ∧
    (∀ (env : Env) (a b : List Byte), env.send_fault = none → env.receive_fault = none →
      2 < env.prio_max → a.length ≤ d.MSG_SIZE → b.length ≤ d.MSG_SIZE →
      (sendAll env { name := d.QUEUE_NAME, access := .wronly }
          (Kernel.empty.set d.QUEUE_NAME (some (MQ.fresh 0o644 10 d.MSG_SIZE)))
          [(a, 2), (b, 2)]).bind
        (receiveAll env { name := d.QUEUE_NAME, access := .rdonly } d.MSG_SIZE 2) =
        some [{ payload := a, prio := 2, seq := 0 }, { payload := b, prio := 2, seq := 1 }]) := by
  refine ⟨?_, ?_, ?_⟩
  · intro env k q hreach hq hne hr
    cases hm : q.msgs with
    | nil => exact absurd hm hne
    | cons m rest =>
      have hrecv := mq_receive_eq env k { name := d.QUEUE_NAME, access := .rdonly } q.msgsize q
        hq (by simp) (le_refl _) hr
      rw [hm] at hrecv
      simp only at hrecv
      refine ⟨m, rest, rfl, by simp, hrecv, ?_, ?_⟩
      · have hwf := (reachable_wf k hreach _ q hq).1
        rw [hm, List.pairwise_cons] at hwf
        intro x hx
        rcases hwf.1 x hx with h | ⟨h1, h2⟩
        · exact Or.inl h
        · exact Or.inr ⟨h1.symm, h2⟩
      · intro hz
        obtain ⟨q1, m1, rest1, hq1, hm1, -, hout, -⟩ := receiver_exit_zero d env k hz
        rw [hq] at hq1
        simp only [Option.some.injEq] at hq1
        subst hq1
        rw [hm] at hm1
        simp only [List.cons.injEq] at hm1
        rw [hout, hm1.1]
  · intro env a b c hs hr hp ha hb hc
    have h1 : ¬ env.prio_max ≤ 1 := by omega
    have h3 : ¬ env.prio_max ≤ 3 := by omega
    have h5 : ¬ env.prio_max ≤ 5 := by omega
    have ha2 : ¬ d.MSG_SIZE < a.length := by omega
    have hb2 : ¬ d.MSG_SIZE < b.length := by omega
    have hc2 : ¬ d.MSG_SIZE < c.length := by omega
    simp [sendAll, receiveAll, mq_send, mq_receive, MQ.fresh, enqueue, hs, hr, h1, h3, h5,
      ha2, hb2, hc2, Kernel.set_set]
  · intro env a b hs hr hp ha hb
    have h2 : ¬ env.prio_max ≤ 2 := by omega
    have ha2 : ¬ d.MSG_SIZE < a.length := by omega
    have hb2 : ¬ d.MSG_SIZE < b.length := by omega
    simp [sendAll, receiveAll, mq_send, mq_receive, MQ.fresh, enqueue, hs, hr, h2,
      ha2, hb2, Kernel.set_set]

/-- C3, the claim as stated, at a concrete input: on the line `a`, NUL, `b`,
newline the sender returns 0 and the one message it stores has the two-byte
payload `a`, NUL, which is not the input line. -/
theorem sender_payload_cut_at_nul :
    inputLine sampleDecl.MSG_SIZE [97, 0, 98, 10] = some [97, 0, 98, 10] ∧
    (Sender.main sampleDecl quietEnv Kernel.empty [97, 0, 98, 10]).outcome = .exit 0 ∧
    ((Sender.main sampleDecl quietEnv Kernel.empty [97, 0, 98, 10]).kernel.queues
        sampleDecl.QUEUE_NAME).map (fun q => q.msgs.map Message.payload) = some [[97, 0]] ∧
    ([97, 0] : List Byte) ≠ [97, 0, 98, 10] ++ [0] := by
  decide

/-- C3, amended: a sender run that returns 0 has opened the named queue
write-only, creating it with capacity 10 and maximum message size `MSG_SIZE`
when it did not exist; afterwards the queue exists with the attributes it had,
holds the messages it held plus exactly one new message of priority `PRIORITY`
(one more than before, the old ones present and unchanged), and no other
queue has changed; the calls made are open, send and close, no unlink.  The
payload of the new message is the C string in `message`: the line `fgets`
stored, cut at its first NUL byte if it has one, followed by a terminating
NUL (the whole line and a NUL when the line holds no NUL byte). -/
theorem sender_frame_effect (d : Declarations) (env : Env) (k : Kernel) (stdin : List Byte)
    (h : (Sender.main d env k stdin).outcome = .exit 0) :
    ∃ q0 q1 m k1,
      mq_open env k d.QUEUE_NAME { creat := true, access := .wronly } 0o644
        (some (Sender.attr d)) = .ok ({ name := d.QUEUE_NAME, access := .wronly }, k1) ∧
      k1.queues d.QUEUE_NAME = some q0 ∧
      (k.queues d.QUEUE_NAME = some q0 ∨
        (k.queues d.QUEUE_NAME = none ∧ q0 = MQ.fresh 0o644 10 d.MSG_SIZE)) ∧
      (Sender.main d env k stdin).kernel.queues d.QUEUE_NAME = some q1 ∧
      q1.maxmsg = q0.maxmsg ∧ q1.msgsize = q0.msgsize ∧ q1.mode = q0.mode ∧
      q1.msgs = enqueue m q0.msgs ∧ m.prio = d.PRIORITY ∧
      q1.msgs.length = q0.msgs.length + 1 ∧
      q0.msgs.Sublist q1.msgs ∧ (∀ x, x ∈ q1.msgs ↔ x = m ∨ x ∈ q0.msgs) ∧
      (∀ name, name ≠ d.QUEUE_NAME →
        (Sender.main d env k stdin).kernel.queues name = k.queues name) ∧
      (Sender.main d env k stdin).calls =
        [("mq_open", none), ("mq_send", none), ("mq_close", none)] ∧
      m.payload = upToNul (Sender.message d env stdin) ++ [0] ∧
      (∀ L, inputLine d.MSG_SIZE stdin = some L → m.payload = upToNul L ++ [0]) ∧
      (∀ L, inputLine d.MSG_SIZE stdin = some L → 0 ∉ L → m.payload = L ++ [0]) := by
  obtain ⟨q0, n, k1, ho, hk1, hq0, hn, -, -, hk, hcalls⟩ := sender_exit_zero d env k stdin h
  have hpay := (strlen_spec _ _ hn).1
  refine ⟨q0,
    { q0 with
      msgs := enqueue
        { payload := (Sender.message d env stdin).take (n + 1), prio := d.PRIORITY,
          seq := q0.clock } q0.msgs,
      clock := q0.clock + 1 },
    (⟨(Sender.message d env stdin).take (n + 1), d.PRIORITY, q0.clock⟩ : Message),
    k1, ho, hk1, hq0, by rw [hk, Kernel.set_same], rfl, rfl, rfl, rfl, rfl,
    length_enqueue _ _, sublist_enqueue _ _, fun x => mem_enqueue _ x _, ?_, hcalls, hpay,
    ?_, ?_⟩
  · intro name hname
    rw [hk, Kernel.set_other _ _ _ _ hname]
  · intro L hL
    simp only
    rw [hpay, message_of_line d env stdin L hL, upToNul_append_nul]
  · intro L hL hnul
    simp only
    rw [hpay, message_of_line d env stdin L hL, upToNul_append_nul, upToNul_of_not_mem L hnul]

/-- C7, the claim as stated, at a concrete input: the sender creates the
queue, a receiver run takes the message and unlinks the queue, a receiver run
on a host whose default capacity is 20 creates the queue anew and suspends,
and sender runs follow.  The namespace after eleven of them is reached by runs
of the two tools from a queue the sender created; the eleventh run returned 0
and the named queue holds 11 messages. -/
theorem recreated_queue_exceeds_ten :
    SenderQueue sampleDecl oneMessage ∧
    (Receiver.main sampleDecl quietEnv oneMessage).outcome = .exit 0 ∧
    (Receiver.main sampleDecl quietEnv oneMessage).kernel.queues sampleDecl.QUEUE_NAME = none ∧
    (Receiver.main sampleDecl bigHost
      (Receiver.main sampleDecl quietEnv oneMessage).kernel).outcome = .blocked ∧
    (refill 0).queues sampleDecl.QUEUE_NAME = some (MQ.fresh 0o644 20 8192) ∧
    ToolReach sampleDecl (refill 11) ∧
    (Sender.main sampleDecl quietEnv (refill 10) sampleLine).outcome = .exit 0 ∧
    ((refill 11).queues sampleDecl.QUEUE_NAME).map (fun q => q.msgs.length) = some 11 :=
  ⟨SenderQueue.created quietEnv sampleLine Kernel.empty (by decide) (by decide),
    by decide, by decide, by decide, by decide, refill_toolReach 11, by decide, by decide⟩

/-- C7, amended: capacity bound of the queue the sender creates.  For as long
as the named queue is one a sender run created (it has not been unlinked), it
has capacity 10 and never holds more than 10 messages; in every namespace the
runs of the two tools reach from there, unlinks and new creations included,
the named queue never holds more messages than its own capacity (10 for a
queue the sender created, the default of the host for one the receiver
created).  On a queue a sender run created: with fewer than 10 messages stored
a sender run does not suspend, and returns 0 with one message more when
nothing faults and `fgets` stored a line; with 10 messages stored a sender run
enqueues nothing (the namespace is unchanged, the run does not return 0) and
suspends when nothing faults; once a receive call has taken a message out, 9
are stored and the sender does not suspend any more. -/
theorem sender_queue_capacity (d : Declarations) :
    (∀ k, SenderQueue d k →
      ∃ q, k.queues d.QUEUE_NAME = some q ∧ q.maxmsg = 10 ∧ q.msgs.length ≤ 10) ∧
    (∀ k q, ToolReach d k → k.queues d.QUEUE_NAME = some q → q.msgs.length ≤ q.maxmsg) ∧
    (∀ k env stdin q, SenderQueue d k → k.queues d.QUEUE_NAME = some q →
      q.msgs.length < 10 →
      (Sender.main d env k stdin).outcome ≠ .blocked ∧
      (∀ L, env.open_fault = none → env.send_fault = none → d.PRIORITY < env.prio_max →
        inputLine d.MSG_SIZE stdin = some L →
        (Sender.main d env k stdin).outcome = .exit 0 ∧
        ∃ q1, (Sender.main d env k stdin).kernel.queues d.QUEUE_NAME = some q1 ∧
          q1.msgs.length = q.msgs.length + 1)) ∧
    (∀ k env stdin q, SenderQueue d k → k.queues d.QUEUE_NAME = some q →
      q.msgs.length = 10 →
      (Sender.main d env k stdin).kernel = k ∧
      (Sender.main d env k stdin).outcome ≠ .exit 0 ∧
      (∀ L, env.open_fault = none → env.send_fault = none → d.PRIORITY < env.prio_max →
        inputLine d.MSG_SIZE stdin = some L →
        (Sender.main d env k stdin).outcome = .blocked) ∧
      (∀ envR len m k2,
        mq_receive envR k { name := d.QUEUE_NAME, access := .rdonly } len = .ok (m, k2) →
        (∃ q2, k2.queues d.QUEUE_NAME = some q2 ∧ q2.msgs.length = 9) ∧
        (Sender.main d env k2 stdin).outcome ≠ .blocked ∧
        (∀ L, env.open_fault = none → env.send_fault = none → d.PRIORITY < env.prio_max →
          inputLine d.MSG_SIZE stdin = some L →
          (Sender.main d env k2 stdin).outcome = .exit 0 ∧
          ∃ q3, (Sender.main d env k2 stdin).kernel.queues d.QUEUE_NAME = some q3 ∧
            q3.msgs.length = 10))) := by
  have fwd : ∀ (k : Kernel) (env : Env) (stdin L : List Byte) (q : MQ),
      k.queues d.QUEUE_NAME = some q → q.msgsize = d.MSG_SIZE →
      env.open_fault = none → env.send_fault = none → d.PRIORITY < env.prio_max →
      inputLine d.MSG_SIZE stdin = some L →
      (q.maxmsg ≤ q.msgs.length → (Sender.main d env k stdin).outcome = .blocked) ∧
      (q.msgs.length < q.maxmsg → (Sender.main d env k stdin).outcome = .exit 0 ∧
        ∃ q1, (Sender.main d env k stdin).kernel.queues d.QUEUE_NAME = some q1 ∧
          q1.msgs.length = q.msgs.length + 1) := by
    intro k env stdin L q hq hsz hf hs hp hL
    have hn := strlen_message_of_line d env stdin L hL
    have h1 := (inputLine_some _ _ _ hL).2
    have h2 := upToNul_length_le L
    have hon := sender_on_existing d env k stdin q _ hq hf hn hp (by omega) hs
    refine ⟨fun hfull => (hon.1 hfull).1, fun hfree => ⟨(hon.2 hfree).1, ?_⟩⟩
    refine ⟨_, by rw [(hon.2 hfree).2, Kernel.set_same], ?_⟩
    simp only [length_enqueue]
  refine ⟨?_, ?_, ?_, ?_⟩
  · intro k hk
    obtain ⟨q, hq, h1, -, h3⟩ := senderQueue_inv d k hk
    exact ⟨q, hq, h1, h3⟩
  · intro k q hk hq
    exact toolReach_inv d k hk q hq
  · intro k env stdin q hk hq hlt
    obtain ⟨q1, hq1, h1, h2, -⟩ := senderQueue_inv d k hk
    rw [hq] at hq1
    simp only [Option.some.injEq] at hq1
    subst hq1
    refine ⟨?_, ?_⟩
    · intro hb
      have := sender_blocked_full d env k stdin q hq hb
      omega
    · intro L hf hs hp hL
      exact (fwd k env stdin L q hq h2 hf hs hp hL).2 (by omega)
  · intro k env stdin q hk hq heq
    obtain ⟨q1, hq1, h1, h2, -⟩ := senderQueue_inv d k hk
    rw [hq] at hq1
    simp only [Option.some.injEq] at hq1
    subst hq1
    have hcases := sender_kernel_cases d env k stdin
    refine ⟨?_, ?_, ?_, ?_⟩
    · rcases hcases with ⟨hkk, -⟩ | ⟨hnone, -⟩ | ⟨-, q0, m, hq0, hc, -, -⟩
      · exact hkk
      · rw [hq] at hnone
        simp at hnone
      · rcases hq0 with hq0 | ⟨hnone, -⟩
        · rw [hq] at hq0
          simp only [Option.some.injEq] at hq0
          subst hq0
          omega
        · rw [hq] at hnone
          simp at hnone
    · rcases hcases with ⟨-, ho⟩ | ⟨hnone, -⟩ | ⟨-, q0, m, hq0, hc, -, -⟩
      · exact ho
      · rw [hq] at hnone
        simp at hnone
      · rcases hq0 with hq0 | ⟨hnone, -⟩
        · rw [hq] at hq0
          simp only [Option.some.injEq] at hq0
          subst hq0
          omega
        · rw [hq] at hnone
          simp at hnone
    · intro L hf hs hp hL
      exact (fwd k env stdin L q hq h2 hf hs hp hL).1 (by omega)
    · intro envR len m k2 hr
      obtain ⟨q1, rest, hq1, hmsgs, -, -, -, hk2⟩ := mq_receive_ok _ _ _ _ _ _ hr
      simp only at hq1 hk2
      rw [hq] at hq1
      simp only [Option.some.injEq] at hq1
      subst hq1
      have hlen : rest.length = 9 := by
        rw [hmsgs] at heq
        simp only [List.length_cons] at heq
        omega
      have hq2 : k2.queues d.QUEUE_NAME = some { q with msgs := rest } := by
        rw [hk2, Kernel.set_same]
      refine ⟨⟨_, hq2, hlen⟩, ?_, ?_⟩
      · intro hb
        have := sender_blocked_full d env k2 stdin _ hq2 hb
        simp only at this
        omega
      · intro L hf hs hp hL
        have := (fwd k2 env stdin L _ hq2 h2 hf hs hp hL).2 (by simp only; omega)
        obtain ⟨hz, q3, hq3, hl3⟩ := this
        exact ⟨hz, q3, hq3, by rw [hl3]; simp only; omega⟩

/-- C4, the code at a failing input: the queue holds one message and the
caller may not unlink it.  The receiver prints the message and returns 0, yet
the named queue still exists afterwards, and an open without `O_CREAT`
succeeds instead of failing with `ENOENT`. -/
theorem receiver_returns_zero_queue_remains :
    (Receiver.main sampleDecl deniedEnv oneMessage).outcome = .exit 0 ∧
    (Receiver.main sampleDecl deniedEnv oneMessage).stdout =
      bytes "Received message: " ++ sampleLine ∧
    (Receiver.main sampleDecl deniedEnv oneMessage).kernel.queues sampleDecl.QUEUE_NAME =
      some { mode := 0o644, maxmsg := 10, msgsize := 256, msgs := [], clock := 1 } ∧
    failure (mq_open quietEnv (Receiver.main sampleDecl deniedEnv oneMessage).kernel
      sampleDecl.QUEUE_NAME { creat := false, access := .rdonly } 0 none) = none := by
  decide

/-- C5, the code at a failing input: the `mq_unlink` call of the receiver
fails with `EACCES`, and the run still returns 0 with nothing reported on
standard error. -/
theorem receiver_swallows_unlink_error :
    (Receiver.main sampleDecl deniedEnv oneMessage).calls =
      [("mq_open", none), ("mq_getattr", none), ("mq_receive", none), ("mq_close", none),
        ("mq_unlink", some .EACCES)] ∧
    (Receiver.main sampleDecl deniedEnv oneMessage).outcome = .exit 0 ∧
    (Receiver.main sampleDecl deniedEnv oneMessage).stderr = [] := by
  decide

/-- C6, the claim as stated, at a concrete input: no queue exists and the
allocation of the receiver fails.  The run ends with exit code 1, and the
named queue, which did not exist before, exists afterwards. -/
theorem failed_receiver_leaves_new_queue :
    Kernel.empty.queues sampleDecl.QUEUE_NAME = none ∧
    (Receiver.main sampleDecl noMemEnv Kernel.empty).outcome = .exit 1 ∧
    (Receiver.main sampleDecl noMemEnv Kernel.empty).stderr = [("malloc", .ENOMEM)] ∧
    (Receiver.main sampleDecl noMemEnv Kernel.empty).kernel.queues sampleDecl.QUEUE_NAME =
      some (MQ.fresh 0o644 10 8192) := by
  decide

/-- C6, amended: a run of either tool that ends with a non-zero exit code
enqueues and dequeues nothing and removes no queue.  The namespace afterwards
is the one before, or differs from it only in that the named queue, absent
before, now exists and is empty (created by the `mq_open` of the run: with
capacity 10 and size `MSG_SIZE` by the sender, with the defaults of the host
by the receiver).  A send rejected with `EMSGSIZE` leaves the namespace, hence
the occupancy, as it was. -/
theorem failed_run_leaves_messages (d : Declarations) (env : Env) (k : Kernel)
    (stdin : List Byte) (c : Nat) (hc : c ≠ 0) :
    ((Sender.main d env k stdin).outcome = .exit c →
      (Sender.main d env k stdin).kernel = k ∨
      (k.queues d.QUEUE_NAME = none ∧
        (Sender.main d env k stdin).kernel =
          k.set d.QUEUE_NAME (some (MQ.fresh 0o644 10 d.MSG_SIZE)))) ∧
    ((Receiver.main d env k).outcome = .exit c →
      (Receiver.main d env k).kernel = k ∨
      (k.queues d.QUEUE_NAME = none ∧
        (Receiver.main d env k).kernel =
          k.set d.QUEUE_NAME (some (MQ.fresh 0o644 env.msg_default env.msgsize_default)))) ∧
    (("mq_send", Errno.EMSGSIZE) ∈ (Sender.main d env k stdin).stderr →
      (Sender.main d env k stdin).kernel = k) := by
  refine ⟨?_, ?_, ?_⟩
  · intro h
    rcases sender_kernel_cases d env k stdin with ⟨hk, -⟩ | ⟨hnone, hk, -⟩ | ⟨hz, -⟩
    · exact Or.inl hk
    · exact Or.inr ⟨hnone, hk⟩
    · rw [h] at hz
      simp only [Outcome.exit.injEq] at hz
      exact absurd hz hc
  · intro h
    rcases receiver_kernel_cases d env k with
      ⟨hk, -⟩ | ⟨hnone, hk, -⟩ | ⟨q, m, rest, -, -, hz | hu, -⟩
    · exact Or.inl hk
    · exact Or.inr ⟨hnone, hk⟩
    · rw [h] at hz
      simp only [Outcome.exit.injEq] at hz
      exact absurd hz hc
    · rw [h] at hu
      simp at hu
  · intro h
    obtain ⟨q, n, -, -, -, hk⟩ := sender_emsgsize d env k stdin h
    exact hk

/-- C6, amended, at concrete inputs: the failed receiver run above created the
queue and nothing else, and a failed sender run (the queue exists with a
maximum message size of 2, the line needs 4 bytes) changes nothing. -/
theorem failed_run_witness :
    ((Receiver.main sampleDecl noMemEnv Kernel.empty).kernel = Kernel.empty ∨
      (Kernel.empty.queues sampleDecl.QUEUE_NAME = none ∧
        (Receiver.main sampleDecl noMemEnv Kernel.empty).kernel =
          Kernel.empty.set sampleDecl.QUEUE_NAME
            (some (MQ.fresh 0o644 noMemEnv.msg_default noMemEnv.msgsize_default)))) ∧
    (Sender.main sampleDecl quietEnv
        (Kernel.empty.set sampleDecl.QUEUE_NAME (some (MQ.fresh 0o644 10 2))) sampleLine).kernel =
      Kernel.empty.set sampleDecl.QUEUE_NAME (some (MQ.fresh 0o644 10 2)) :=
  ⟨(failed_run_leaves_messages sampleDecl noMemEnv Kernel.empty sampleLine 1 (by decide)).2.1
      (by decide),
    (failed_run_leaves_messages sampleDecl quietEnv
      (Kernel.empty.set sampleDecl.QUEUE_NAME (some (MQ.fresh 0o644 10 2))) sampleLine 1
      (by decide)).2.2 (by decide)⟩

/-- C8: message-size invariant of the sender.  When `fgets` stores a line, the
length the sender passes to `mq_send`, `strlen(message) + 1`, is at least 1
and at most `MSG_SIZE`.  Hence the send is never rejected with `EMSGSIZE` on a
queue the sender creates (the named queue is absent, or is one a sender run
created), and the message a run that returns 0 enqueues has that length,
which is within the maximum message size of the queue. -/
theorem sender_payload_length_bounded (d : Declarations) (env : Env) (stdin L : List Byte)
    (hL : inputLine d.MSG_SIZE stdin = some L) :
    ∃ n, strlen (Sender.message d env stdin) = some n ∧ 1 ≤ n + 1 ∧ n + 1 ≤ d.MSG_SIZE ∧
      (∀ k, (k.queues d.QUEUE_NAME = none ∨ SenderQueue d k) →
        ("mq_send", Errno.EMSGSIZE) ∉ (Sender.main d env k stdin).stderr) ∧
      (∀ k, (Sender.main d env k stdin).outcome = .exit 0 →
        ∃ q0 q1 m, (k.queues d.QUEUE_NAME = some q0 ∨
            (k.queues d.QUEUE_NAME = none ∧ q0 = MQ.fresh 0o644 10 d.MSG_SIZE)) ∧
          (Sender.main d env k stdin).kernel.queues d.QUEUE_NAME = some q1 ∧
          q1.msgs = enqueue m q0.msgs ∧ m.payload.length = n + 1 ∧
          m.payload.length ≤ q1.msgsize) := by
  have hn := strlen_message_of_line d env stdin L hL
  have h1 := (inputLine_some _ _ _ hL).2
  have h2 := upToNul_length_le L
  refine ⟨_, hn, by omega, by omega, ?_, ?_⟩
  · intro k hk hmem
    obtain ⟨q, n, hq, hn2, hlt, -⟩ := sender_emsgsize d env k stdin hmem
    rw [hn] at hn2
    simp only [Option.some.injEq] at hn2
    subst hn2
    rcases hk with hnone | hsq
    · rw [hq] at hnone
      simp at hnone
    · obtain ⟨q1, hq1, -, hsz, -⟩ := senderQueue_inv d k hsq
      rw [hq] at hq1
      simp only [Option.some.injEq] at hq1
      subst hq1
      omega
  · intro k hz
    obtain ⟨q0, n, -, -, -, hq0, hn2, hl, -, hk, -⟩ := sender_exit_zero d env k stdin hz
    rw [hn] at hn2
    simp only [Option.some.injEq] at hn2
    subst hn2
    have hlen := (strlen_spec _ _ hn).2.2
    refine ⟨q0, _, (⟨(Sender.message d env stdin).take ((upToNul L).length + 1), d.PRIORITY,
      q0.clock⟩ : Message), hq0, by rw [hk, Kernel.set_same], rfl, ?_, ?_⟩
    · simp only [List.length_take]
      omega
    · simp only [List.length_take]
      omega

/-- C9, the code at a failing input: the named queue holds the messages `hi`
and `yo` and the caller may not unlink it.  The receiver prints `hi` and
returns 0 with nothing reported; the queue survives and still holds `yo`, and
the receiver run that follows obtains `yo` and prints it. -/
theorem leftover_message_delivered_later :
    (Receiver.main sampleDecl deniedEnv twoMessages).outcome = .exit 0 ∧
    (Receiver.main sampleDecl deniedEnv twoMessages).stderr = [] ∧
    (Receiver.main sampleDecl deniedEnv twoMessages).stdout =
      bytes "Received message: " ++ sampleLine ∧
    ((Receiver.main sampleDecl deniedEnv twoMessages).kernel.queues
        sampleDecl.QUEUE_NAME).map (fun q => q.msgs.map Message.payload) =
      some [[121, 111, 10, 0]] ∧
    (Receiver.main sampleDecl quietEnv
      (Receiver.main sampleDecl deniedEnv twoMessages).kernel).outcome = .exit 0 ∧
    (Receiver.main sampleDecl quietEnv
      (Receiver.main sampleDecl deniedEnv twoMessages).kernel).stdout =
        bytes "Received message: " ++ [121, 111, 10] := by
  decide

/-- What the receiver does when nothing goes wrong.  The named queue holds
`m1`, `m2` and possibly more; the receiver returns 0 and every call it made
succeeded, `mq_unlink` included.  Then it printed `m1` only, the named queue is
gone, and the namespace is the one the run would have left had the queue held
`m1` alone.  A receiver run that follows does not return 0 and prints nothing;
when neither its open, its allocation nor its receive faults it creates an
empty queue under the name, with the defaults of the host, and suspends. -/
theorem receiver_unlinks_after_first (d : Declarations) (env : Env) (k : Kernel) (q : MQ)
    (m1 m2 : Message) (rest : List Message)
    (hq : k.queues d.QUEUE_NAME = some q) (hmsgs : q.msgs = m1 :: m2 :: rest)
    (hz : (Receiver.main d env k).outcome = .exit 0)
    (hsucc : ∀ c ∈ (Receiver.main d env k).calls, c.2 = none) :
    (Receiver.main d env k).stdout =
      bytes "Received message: " ++ upToNul (Receiver.buffer env q.msgsize m1) ∧
    (Receiver.main d env k).kernel = k.set d.QUEUE_NAME none ∧
    (Receiver.main d env k).kernel =
      (Receiver.main d env (k.set d.QUEUE_NAME (some { q with msgs := [m1] }))).kernel ∧
    (∀ env2,
      (Receiver.main d env2 (Receiver.main d env k).kernel).outcome ≠ .exit 0 ∧
      (Receiver.main d env2 (Receiver.main d env k).kernel).stdout = [] ∧
      (env2.open_fault = none → env2.malloc_fails = false → env2.receive_fault = none →
        (Receiver.main d env2 (Receiver.main d env k).kernel).outcome = .blocked ∧
        (Receiver.main d env2 (Receiver.main d env k).kernel).kernel.queues d.QUEUE_NAME =
          some (MQ.fresh 0o644 env2.msg_default env2.msgsize_default))) := by
  obtain ⟨q1, m, r, hq1, hm, hrecv, hout, hker, -, hcalls, hstr, hopen, hmal, hrf⟩ :=
    receiver_exit_zero d env k hz
  rw [hq] at hq1
  simp only [Option.some.injEq] at hq1
  subst hq1
  rw [hmsgs] at hm
  simp only [List.cons.injEq] at hm
  obtain ⟨rfl, rfl⟩ := hm
  have hunl : env.unlink_fault = none := by
    have h := hsucc ("mq_unlink", failure (mq_unlink env
      (k.set d.QUEUE_NAME (some { q with msgs := m2 :: rest })) d.QUEUE_NAME))
      (by rw [hcalls]; simp)
    simp only [mq_unlink, Kernel.set_same] at h
    cases hf : env.unlink_fault with
    | none => rfl
    | some f => simp [hf, failure] at h
  have hgone : (Receiver.main d env k).kernel = k.set d.QUEUE_NAME none := by
    rw [hker]
    simp [Receiver.unlinked, mq_unlink, hunl, Kernel.set_set]
  refine ⟨hout, hgone, ?_, ?_⟩
  · rw [hgone]
    have hq5 : (k.set d.QUEUE_NAME (some { q with msgs := [m1] })).queues d.QUEUE_NAME =
        some { q with msgs := [m1] } := Kernel.set_same _ _ _
    have hz5 := (receiver_on_existing d env _ _ hq5 hopen hmal hrf).2 m1 [] rfl hstr
    obtain ⟨q6, m6, r6, hq6, hm6, -, -, hker6, -⟩ := receiver_exit_zero d env _ hz5
    rw [hq5] at hq6
    simp only [Option.some.injEq] at hq6
    subst hq6
    rw [hker6]
    simp [Receiver.unlinked, mq_unlink, hunl, Kernel.set_set]
  · intro env2
    have hnone : (Receiver.main d env k).kernel.queues d.QUEUE_NAME = none := by
      rw [hgone, Kernel.set_same]
    have hnz : (Receiver.main d env2 (Receiver.main d env k).kernel).outcome ≠ .exit 0 := by
      intro hz2
      obtain ⟨q7, -, -, hq7, -⟩ := receiver_exit_zero d env2 _ hz2
      rw [hnone] at hq7
      simp at hq7
    refine ⟨hnz, receiver_stdout_nil d env2 _ hnz, ?_⟩
    intro hf hm hr
    obtain ⟨h1, h2, -⟩ := receiver_on_missing d env2 _ hnone hf hm hr
    exact ⟨h1, by rw [h2, Kernel.set_same]⟩

/-- C10: the receiver never fails with `ENOENT`.  No error it reports is
`ENOENT`; when the named queue does not exist and neither its open, its
allocation nor its receive faults, the receiver creates the queue, empty and
with the default capacity and maximum message size of the host, and suspends
in the receive.  The open of a sender run that follows succeeds on that queue
without changing it, and whatever the sender run then does, the queue keeps
the defaults of the host: the attributes the sender passes are ignored. -/
theorem receiver_creates_default_queue (d : Declarations) :
    (∀ env k, ∀ e ∈ (Receiver.main d env k).stderr, e.2 ≠ .ENOENT) ∧
    (∀ env k, k.queues d.QUEUE_NAME = none → env.open_fault = none →
      env.malloc_fails = false → env.receive_fault = none →
      (Receiver.main d env k).outcome = .blocked ∧
      (Receiver.main d env k).kernel =
        k.set d.QUEUE_NAME (some (MQ.fresh 0o644 env.msg_default env.msgsize_default)) ∧
      (∀ envS stdin, envS.open_fault = none →
        mq_open envS (Receiver.main d env k).kernel d.QUEUE_NAME
            { creat := true, access := .wronly } 0o644 (some (Sender.attr d)) =
          .ok ({ name := d.QUEUE_NAME, access := .wronly }, (Receiver.main d env k).kernel) ∧
        ∃ q, (Sender.main d envS (Receiver.main d env k).kernel stdin).kernel.queues
            d.QUEUE_NAME = some q ∧
          q.maxmsg = env.msg_default ∧ q.msgsize = env.msgsize_default)) := by
  refine ⟨fun env k => receiver_stderr_not_enoent d env k, ?_⟩
  intro env k hq hf hm hr
  obtain ⟨h1, h2, -⟩ := receiver_on_missing d env k hq hf hm hr
  refine ⟨h1, h2, ?_⟩
  intro envS stdin hfS
  have hq2 : (Receiver.main d env k).kernel.queues d.QUEUE_NAME =
      some (MQ.fresh 0o644 env.msg_default env.msgsize_default) := by
    rw [h2, Kernel.set_same]
  refine ⟨mq_open_existing envS _ _ _ _ _ _ hfS hq2, ?_⟩
  rcases sender_kernel_cases d envS (Receiver.main d env k).kernel stdin with
    ⟨hk, -⟩ | ⟨hnone, -⟩ | ⟨-, q0, m, hq0, -, -, hk⟩
  · exact ⟨_, by rw [hk, hq2], rfl, rfl⟩
  · rw [hq2] at hnone
    simp at hnone
  · rcases hq0 with hq0 | ⟨hnone, -⟩
    · rw [hq2] at hq0
      simp only [Option.some.injEq] at hq0
      subst hq0
      exact ⟨_, by rw [hk, Kernel.set_same], rfl, rfl⟩
    · rw [hq2] at hnone
      simp at hnone

/-! ## The claims at concrete inputs -/

/-- C1 at a concrete input: the sender run on `hi`, newline, against no queue,
followed by a receiver run on a host where nothing faults. -/
theorem round_trip_witness :
    inputLine sampleDecl.MSG_SIZE sampleLine = some sampleLine ∧
    (Sender.main sampleDecl quietEnv Kernel.empty sampleLine).outcome = .exit 0 ∧
    ∃ q m, oneMessage.queues sampleDecl.QUEUE_NAME = some q ∧ q.msgs = [m] ∧
      m.payload = sampleLine ++ [0] ∧
      (Receiver.main sampleDecl quietEnv oneMessage).outcome = .exit 0 ∧
      (Receiver.main sampleDecl quietEnv oneMessage).stdout =
        bytes "Received message: " ++ sampleLine := by
  obtain ⟨q, m, h1, h2, h3, -, h5, h6⟩ :=
    round_trip_sender_receiver sampleDecl quietEnv quietEnv Kernel.empty sampleLine sampleLine
      (by decide) (by decide) (by intro q h; simp [Kernel.empty] at h) (by decide)
  have hz := (h6 rfl rfl rfl).2
  exact ⟨by decide, by decide, q, m, h1, h2, h3, hz, h5 hz⟩

/-- C2 at a concrete input: the namespace two sender runs leave is one the
queue calls produce, and the receive call returns the message sent first. -/
theorem receive_order_witness :
    Reachable twoMessages ∧
    ∃ m rest,
      mq_receive quietEnv twoMessages { name := sampleDecl.QUEUE_NAME, access := .rdonly } 256 =
        .ok (m, twoMessages.set sampleDecl.QUEUE_NAME
          (some { mode := 0o644, maxmsg := 10, msgsize := 256, msgs := rest, clock := 2 })) ∧
      m.payload = sampleLine ++ [0] ∧ rest.map Message.payload = [[121, 111, 10, 0]] := by
  have hr : Reachable twoMessages :=
    sender_reachable _ _ _ _ (sender_reachable _ _ _ _ Reachable.boot)
  obtain ⟨m, rest, h1, -, h3, -⟩ :=
    (receive_highest_priority_earliest sampleDecl).1 quietEnv twoMessages
      { mode := 0o644, maxmsg := 10, msgsize := 256,
        msgs := [{ payload := [104, 105, 10, 0], prio := 1, seq := 0 },
          { payload := [121, 111, 10, 0], prio := 1, seq := 1 }],
        clock := 2 }
      hr (by decide) (by decide) rfl
  simp only [List.cons.injEq] at h1
  obtain ⟨rfl, rfl⟩ := h1
  exact ⟨hr, _, _, h3, by decide, by decide⟩

/-- C3, amended, at a concrete input: a sender run on a queue that already
holds one message. -/
theorem sender_frame_effect_witness :
    (Sender.main sampleDecl quietEnv oneMessage [121, 111, 10]).outcome = .exit 0 ∧
    ∃ q0 q1 m, oneMessage.queues sampleDecl.QUEUE_NAME = some q0 ∧
      twoMessages.queues sampleDecl.QUEUE_NAME = some q1 ∧
      q1.msgs = enqueue m q0.msgs ∧ m.prio = sampleDecl.PRIORITY ∧
      q1.msgs.length = q0.msgs.length + 1 ∧ m.payload = [121, 111, 10] ++ [0] := by
  obtain ⟨q0, q1, m, k1, -, -, h3, h4, -, -, -, h8, h9, h10, -, -, -, -, -, -, h17⟩ :=
    sender_frame_effect sampleDecl quietEnv oneMessage [121, 111, 10] (by decide)
  rcases h3 with h3 | ⟨h3, -⟩
  · exact ⟨by decide, q0, q1, m, h3, h4, h8, h9, h10, h17 _ (by decide) (by decide)⟩
  · exact absurd h3 (by decide)

/-- C7, amended, at concrete inputs: after ten sender runs the queue a sender
created holds 10 messages, the tenth run returned 0, an eleventh run suspends
and changes nothing; the queue a receiver created anew on a host with default
capacity 20 holds 11 messages, within its capacity. -/
theorem sender_queue_capacity_witness :
    (∃ q, (refill 11).queues sampleDecl.QUEUE_NAME = some q ∧ q.maxmsg = 20 ∧
      q.msgs.length ≤ q.maxmsg) ∧
    SenderQueue sampleDecl (sendTimes 9) ∧
    (∃ q, (sendTimes 9).queues sampleDecl.QUEUE_NAME = some q ∧ q.maxmsg = 10 ∧
      q.msgs.length ≤ 10) ∧
    (Sender.main sampleDecl quietEnv (sendTimes 8) sampleLine).outcome = .exit 0 ∧
    (Sender.main sampleDecl quietEnv (sendTimes 9) sampleLine).outcome = .blocked ∧
    (Sender.main sampleDecl quietEnv (sendTimes 9) sampleLine).kernel = sendTimes 9 := by
  have h9 := sendTimes_senderQueue 9
  have h8 := sendTimes_senderQueue 8
  obtain ⟨q8, hq8⟩ : ∃ q, (sendTimes 8).queues sampleDecl.QUEUE_NAME = some q ∧
      q.msgs.length = 9 := ⟨_, rfl, by decide⟩
  obtain ⟨q9, hq9⟩ : ∃ q, (sendTimes 9).queues sampleDecl.QUEUE_NAME = some q ∧
      q.msgs.length = 10 := ⟨_, rfl, by decide⟩
  have hfree := ((sender_queue_capacity sampleDecl).2.2.1 (sendTimes 8) quietEnv sampleLine q8
    h8 hq8.1 (by omega)).2 sampleLine rfl rfl (by decide) (by decide)
  have hfull := (sender_queue_capacity sampleDecl).2.2.2 (sendTimes 9) quietEnv sampleLine q9 h9
    hq9.1 hq9.2
  obtain ⟨q11, hq11⟩ : ∃ q, (refill 11).queues sampleDecl.QUEUE_NAME = some q ∧
      q.maxmsg = 20 := ⟨_, rfl, by decide⟩
  refine ⟨⟨q11, hq11.1, hq11.2, (sender_queue_capacity sampleDecl).2.1 (refill 11) q11
    (refill_toolReach 11) hq11.1⟩, ?_⟩
  exact ⟨h9, (sender_queue_capacity sampleDecl).1 _ h9, hfree.1,
    hfull.2.2.1 sampleLine rfl rfl (by decide) (by decide), hfull.1⟩

/-- C8 at a concrete input: the line `hi`, newline, gives a length of 4. -/
theorem sender_payload_length_witness :
    inputLine sampleDecl.MSG_SIZE sampleLine = some sampleLine ∧
    ∃ n, strlen (Sender.message sampleDecl quietEnv sampleLine) = some n ∧ 1 ≤ n + 1 ∧
      n + 1 ≤ sampleDecl.MSG_SIZE ∧
      ("mq_send", Errno.EMSGSIZE) ∉
        (Sender.main sampleDecl quietEnv Kernel.empty sampleLine).stderr := by
  obtain ⟨n, h1, h2, h3, h4, -⟩ :=
    sender_payload_length_bounded sampleDecl quietEnv sampleLine sampleLine (by decide)
  exact ⟨by decide, n, h1, h2, h3, h4 Kernel.empty (Or.inl (by decide))⟩

/-- C10 at a concrete input: the receiver run against no queue creates one
with the defaults of the host (here capacity 10, size 8192) and suspends; the
sender run that follows leaves those attributes in place. -/
theorem receiver_creates_queue_witness :
    (Receiver.main sampleDecl quietEnv Kernel.empty).outcome = .blocked ∧
    (Receiver.main sampleDecl quietEnv Kernel.empty).kernel =
      Kernel.empty.set sampleDecl.QUEUE_NAME (some (MQ.fresh 0o644 10 8192)) ∧
    ∃ q, (Sender.main sampleDecl quietEnv
        (Receiver.main sampleDecl quietEnv Kernel.empty).kernel sampleLine).kernel.queues
          sampleDecl.QUEUE_NAME = some q ∧
      q.maxmsg = 10 ∧ q.msgsize = 8192 := by
  obtain ⟨h1, h2, h3⟩ :=
    (receiver_creates_default_queue sampleDecl).2 quietEnv Kernel.empty (by decide) rfl rfl rfl
  exact ⟨h1, h2, (h3 quietEnv sampleLine rfl).2⟩

end IpcMq
